import Mathlib

/-!
# Verification of the Candy compiler and VM against its specification

Shallow embedding of the parts of the Candy repository (parser, VM builtins,
module resolution, MIR optimizer driver, MIR→LIR lowering, constant folding,
fuzzer input pool, heap reference counting) that the claims under audit are
about, together with theorems settling each claim.

Machine integers (`usize`) are modelled as `Nat` with explicit `% 2 ^ 64`
where wrap-around matters; arbitrary-precision integers (`BigInt`/`BigUint`)
are `Int`/`Nat`; fallible Rust code returns `Except`/`Option`; a Rust
`panic!`/`unwrap` failure (which aborts the VM process) is modelled by a
distinguished `abort` outcome, kept separate from a Candy-level runtime panic
(which carries a reason text and a responsible HIR id).
-/

namespace Candy

/-! ## Heap objects and reference counting

From `vm/src/heap/object_heap/mod.rs`. `HeapObject::drop` decrements the
reference-count word and, exactly when the new count is zero, frees the
object: `free` first calls `drop_children` and then `deallocate`.
The reference count lives in a `u64` word read as `usize`; the decrement
`self.reference_count() - 1` is modelled with wrap-around semantics so that
the underflow case is representable. -/

namespace Heap

/-- The two steps `HeapObject::free` performs, in order: `data.drop_children(heap)`
followed by `heap.deallocate(data)`. -/
inductive FreeAction where
  | dropChildren
  | deallocate
  deriving Repr, DecidableEq

/-- `HeapObject::drop` (object_heap/mod.rs lines 96–104): compute
`new_reference_count = reference_count - 1` (a `usize` subtraction, modelled
with wrap-around), store it, and if it is zero call `free`, which performs
`drop_children` then `deallocate`. Returns the stored count and the list of
free actions performed. -/
def dropObject (referenceCount : Nat) : Nat × List FreeAction :=
  let newReferenceCount := (referenceCount + (2 ^ 64 - 1)) % 2 ^ 64
  (newReferenceCount,
    if newReferenceCount = 0 then [.dropChildren, .deallocate] else [])

end Heap

/-! ## Fuzzer input pool

From `fuzzer/src/input_pool.rs`. `InputPool::new` clones the observed symbol
texts into a fresh heap; the symbol `"Nothing"` is pushed only when no symbol
at all was observed. The `FxHashSet` of observed symbols is modelled as the
list of its elements. -/

namespace Fuzzer

structure InputPool where
  numArgs : Nat
  symbols : List String
  deriving Repr, DecidableEq

/-- `InputPool::new` (input_pool.rs lines 19–36): `symbols` is the clone of
`symbols_in_heap`; `if symbols.is_empty() { symbols.push("Nothing") }`. -/
def InputPool.new (numArgs : Nat) (symbolsInHeap : List String) : InputPool :=
  let symbols := symbolsInHeap
  let symbols := if symbols.isEmpty then symbols ++ ["Nothing"] else symbols
  { numArgs := numArgs, symbols := symbols }

end Fuzzer

/-! ## VM builtin functions

From `vm/src/builtin_functions.rs`. Builtins receive argument pointers and
read the pointed-to data from the fiber's heap; here the heap indirection is
flattened and a builtin receives the argument data directly (the claims
quantify over argument values, not addresses). Reference-count bookkeeping
(`dup`/`drop` of the arguments and of returned items) does not affect the
computed value and is not represented.

Three distinct failure modes are kept apart, as in the source:
* `ok v` — the builtin returned a value (`SuccessfulBehavior::Return`);
* `err reason` — the builtin returned `Err(reason)`, which
  `run_builtin_function` turns into a Candy-level panic carrying `reason`
  and the responsible HIR id supplied by the call site;
* `abort` — the Rust code itself panics (`unwrap()` on `None`, slice index
  out of bounds), which aborts the whole VM rather than raising a Candy
  panic. -/

namespace Vm

/-- A HIR id (module plus key path); its structure is irrelevant here. -/
abbrev HirId : Type := String

/-- Heap data, flattened (list items are stored inline instead of behind
pointers). Only the kinds the audited builtins touch are spelled out. -/
inductive Data where
  | int (value : Int)
  | text (value : String)
  | tag (symbol : String)
  | list (items : List Data)
  | hirId (id : String)

/-- Outcome of running one builtin's Rust body. -/
inductive RunResult where
  | ok (value : Data)
  | err (reason : String)
  | abort

/-- What the fiber does with a builtin's result
(`run_builtin_function`, builtin_functions.rs lines 75–87): a returned value
is pushed, an `Err(reason)` becomes `self.panic(reason, responsible)`, and a
Rust panic propagates (aborting the VM). -/
inductive FiberOutcome where
  | returned (value : Data)
  | panicked (reason : String) (responsible : HirId)
  | aborted

/-- The `Err` produced by `unpack!` when an argument has the wrong type.
The exact message lives in the heap module (not under audit); only the fact
that it is an `Err` matters. -/
def typeMismatch : RunResult := .err "wrong argument type for builtin"

/-- `BigInt::to_usize`: `some` exactly when the value fits in a `usize`. -/
def toUsize (value : Int) : Option Nat :=
  if 0 ≤ value ∧ value ≤ (2 ^ 64 - 1 : Int) then some value.toNat else none

/-- `Heap::int_divide_truncating` (builtin_functions.rs lines 280–287):
unpack two `Int` arguments; `Err("Can't divide by zero.")` when the divisor
is zero; otherwise return the truncated quotient `&dividend.value / &divisor.value`
(Rust `BigInt` division truncates toward zero, i.e. `Int.tdiv`). -/
def intDivideTruncating (args : List Data) : RunResult :=
  match args with
  | [dividend, divisor] =>
    match dividend, divisor with
    | .int dividend, .int divisor =>
      if divisor = 0 then .err "Can't divide by zero."
      else .ok (.int (dividend.tdiv divisor))
    | _, _ => typeMismatch
  | _ => .err "A builtin function was called with the wrong number of arguments."

/-- `Heap::list_get` (builtin_functions.rs lines 344–351): unpack a `List`
and an `Int`; `index.value.to_usize().unwrap()` aborts on a negative or
oversized index, and the unchecked `list.items[index]` aborts when the index
is at least the list's length; otherwise the item is returned. -/
def listGet (args : List Data) : RunResult :=
  match args with
  | [list, index] =>
    match list, index with
    | .list items, .int index =>
      match toUsize index with
      | none => .abort
      | some index =>
        match items[index]? with
        | none => .abort
        | some item => .ok item
    | _, _ => typeMismatch
  | _ => .err "A builtin function was called with the wrong number of arguments."

/-- The dispatch tail of `Fiber::run_builtin_function`: `Ok(Return(value))`
pushes the value, `Err(reason)` raises a Candy panic blaming the responsible
HIR id read from the call site, and a Rust panic aborts the VM. -/
def runBuiltin (result : RunResult) (responsible : HirId) : FiberOutcome :=
  match result with
  | .ok value => .returned value
  | .err reason => .panicked reason responsible
  | .abort => .aborted

end Vm

/-! ## Module resolution (`use`)

From `src/compiler/src/vm/use_provider.rs` (the tree-walking VM) and
`src/compiler/src/vm/value.rs`. `Vm::use_module` exports the relative-path
argument as a self-contained `Value`, parses it into a `UsePath`
(`parent_navigations` = number of leading dots minus one, then the target
name), resolves it against the importing module's path (popping one
component per parent navigation), asks the use provider for the module, and
only then pushes onto the data stack. Every failure returns `Err(String)`
before the stack is touched.

The module type itself (`crate::module`) is not under `src/`; it is modelled
from the spec (§3): a package, a path (list of components), and a kind that
is *code* (no dot in the final component) or *asset*. -/

namespace UseVm

inductive ModuleKind where
  | code
  | asset
  deriving Repr, DecidableEq

/-- Modelled from the spec: a module is "identified by a package and a path"
and "has a `kind` of either *code* or *asset*" (§3, §6). -/
structure Module where
  package : String
  path : List String
  kind : ModuleKind
  deriving Repr, DecidableEq

/-- Opaque stand-in for compiled bytecode carried by `UseResult::Code`;
its contents are irrelevant to module resolution. -/
structure Lir where
  chunkCount : Nat
  deriving Repr, DecidableEq

/-- Self-contained values (`value.rs`): `Int(u64)`, `Text`, `Symbol`,
`Struct` (here an association list), `Closure`. The closure payload is the
module and bytecode it was built from (`Closure::of_lir`). -/
inductive Value where
  | int (value : Nat)
  | text (value : String)
  | symbol (value : String)
  | struct (fields : List (Value × Value))
  | closure (module : Module) (lir : Lir)

/-- `Value::list` (value.rs): a struct keyed by the indices `0, 1, …`. -/
def Value.list (items : List Value) : Value :=
  .struct (items.enum.map fun p => (Value.int p.1, p.2))

structure UsePath where
  parentNavigations : Nat
  path : String
  deriving Repr, DecidableEq

/-- The `while path.chars().next() == Some('.')` loop of `UsePath::parse`:
number of leading `.` characters. -/
def countLeadingDots : List Char → Nat
  | [] => 0
  | c :: rest => if c = '.' then countLeadingDots rest + 1 else 0

/-- `UsePath::parse` (use_provider.rs lines 81–108): the argument must be a
text; count and strip the leading dots (zero dots is an error, and
"two dots means one parent navigation": `parent_navigations = dots - 1`);
the remainder may only contain ASCII alphanumeric characters and dots. -/
def UsePath.parse (path : Value) : Except String UsePath :=
  match path with
  | .text path =>
    let chars := path.toList
    let navigations := countLeadingDots chars
    let rest := chars.drop navigations
    match navigations with
    | 0 => .error "the target must start with at least one dot"
    | i + 1 =>
      if rest.all (fun c => c.isAlphanum || c = '.') then
        .ok { parentNavigations := i, path := String.mk rest }
      else
        .error "the target name can only contain letters and dots"
  | _ => .error "the path has to be a text"

/-- The `for _ in 0..self.parent_navigations { path.pop() }` loop of
`resolve_relative_to`: pop `n` components off the end, `none` (an error) as
soon as a pop hits the empty path. -/
def popComponents (path : List String) : Nat → Option (List String)
  | 0 => some path
  | n + 1 => if path.isEmpty then none else popComponents path.dropLast n

/-- `UsePath::resolve_relative_to` (use_provider.rs lines 110–130): the kind
is *asset* iff the target name contains a dot; pop one component of the
importing module's path per parent navigation (erroring with
"too many parent navigations" on underflow); append the target name. -/
def UsePath.resolveRelativeTo (target : UsePath) (currentModule : Module) :
    Except String Module :=
  let kind := if target.path.toList.contains '.' then ModuleKind.asset
    else ModuleKind.code
  match popComponents currentModule.path target.parentNavigations with
  | none => .error "too many parent navigations"
  | some path =>
    .ok { package := currentModule.package, path := path ++ [target.path],
          kind := kind }

inductive UseResult where
  | asset (bytes : List Nat)
  | code (lir : Lir)

/-- `Vm::use_module` (use_provider.rs lines 43–71), with the use provider and
the `Call` instruction execution (which lives in the missing interpreter
module) passed in as functions. The fiber's data stack is threaded
explicitly; every `Err` is returned before the stack is modified. -/
def useModule (provider : Module → Except String UseResult)
    (runCall : List Value → List Value)
    (currentModule : Module) (relativePath : Value) (stack : List Value) :
    Except String Unit × List Value :=
  match UsePath.parse relativePath with
  | .error e => (.error e, stack)
  | .ok target =>
    match target.resolveRelativeTo currentModule with
    | .error e => (.error e, stack)
    | .ok module =>
      match provider module with
      | .error e => (.error e, stack)
      | .ok (.asset bytes) =>
        (.ok (), stack ++ [Value.list (bytes.map Value.int)])
      | .ok (.code lir) =>
        (.ok (), runCall (stack ++ [Value.closure module lir]))

end UseVm

/-! ## MIR

The MIR (`candy_frontend::mir`) as used by `mir_optimize/mod.rs` and
`vm/src/mir_to_lir.rs`: a body is an ordered sequence of `(Id, Expression)`
definitions, the body's last definition is its return value, and the
expression variants are the ones matched in `mir_to_lir.rs` lines 96–237.
The `mir` module itself is not under `src/`; the variant list is taken from
that exhaustive match. -/

set_option linter.dupNamespace false

namespace Mir

abbrev Id := Nat

mutual

inductive Expression where
  | int (value : Int)
  | text (value : String)
  | reference (id : Id)
  | symbol (value : String)
  | builtin (function : Nat)
  | list (items : List Id)
  | struct (fields : List (Id × Id))
  | hirId (id : String)
  | lambda (parameters : List Id) (responsibleParameter : Id) (body : Body)
  | parameter
  | call (function : Id) (arguments : List Id) (responsible : Id)
  | useModule (currentModule : Id) (relativePath : Id)
  | panic (reason : Id) (responsible : Id)
  | multiple (body : Body)
  | moduleStarts (module : String)
  | moduleEnds
  | traceCallStarts (hirCall : Id) (function : Id) (arguments : List Id)
      (responsible : Id)
  | traceCallEnds (returnValue : Id)
  | traceExpressionEvaluated (hirExpression : Id) (value : Id)
  | traceFoundFuzzableClosure (hirDefinition : Id) (closure : Id)

inductive Body where
  | nil
  | cons (id : Id) (expression : Expression) (rest : Body)

end

structure Mir where
  body : Body

mutual

/-- The ids an expression mentions from the surrounding scope. For a lambda
this is the free ids of its body minus its parameters and responsible
parameter — exactly what `Expression::captured_ids` (in the mir module, not
under `src/`) computes; spec §4.B: captures are "every referenced ID whose
defining scope is not this lambda or an ancestor". -/
def Expression.freeIds : Expression → List Id
  | .reference id => [id]
  | .list items => items
  | .struct fields => fields.map Prod.fst ++ fields.map Prod.snd
  | .call function arguments responsible =>
      function :: (arguments ++ [responsible])
  | .useModule currentModule relativePath => [currentModule, relativePath]
  | .panic reason responsible => [reason, responsible]
  | .lambda parameters responsibleParameter body =>
      (Body.freeIds body).filter
        (fun id => !(parameters.contains id || id == responsibleParameter))
  | .multiple body => Body.freeIds body
  | .traceCallStarts hirCall function arguments responsible =>
      hirCall :: function :: (arguments ++ [responsible])
  | .traceCallEnds returnValue => [returnValue]
  | .traceExpressionEvaluated hirExpression value => [hirExpression, value]
  | .traceFoundFuzzableClosure hirDefinition closure => [hirDefinition, closure]
  | _ => []

def Body.freeIds : Body → List Id
  | .nil => []
  | .cons id e rest =>
      Expression.freeIds e ++ (Body.freeIds rest).filter (· ≠ id)

end

mutual

/-- All ids defined anywhere in a body, including definitions, parameters and
responsible parameters of nested lambdas. -/
def Expression.definedIds : Expression → List Id
  | .lambda parameters responsibleParameter body =>
      parameters ++ [responsibleParameter] ++ Body.definedIds body
  | .multiple body => Body.definedIds body
  | _ => []

def Body.definedIds : Body → List Id
  | .nil => []
  | .cons id e rest =>
      id :: (Expression.definedIds e ++ Body.definedIds rest)

end

mutual

/-- No `Multiple` and no `UseModule` expression anywhere in the tree. -/
def Expression.noStale : Expression → Bool
  | .multiple _ => false
  | .useModule _ _ => false
  | .lambda _ _ body => Body.noStale body
  | _ => true

def Body.noStale : Body → Bool
  | .nil => true
  | .cons _ e rest => Expression.noStale e && Body.noStale rest

end

def listNodup : List Id → Bool
  | [] => true
  | x :: xs => !xs.contains x && listNodup xs

/-- Modelled from the spec: `Mir::validate` (mir module, not under `src/`)
"enforces: unique definitions, all references dominated by definitions, no
stale `Multiple`/`UseModule`, every `Call` has a responsible argument"
(§4.D). Unique definitions: `definedIds` has no duplicate. Domination: the
whole body has no free id (an id referenced before or without a definition
stays free; with unique definitions this is exactly domination). Every call's
responsible argument is part of its referenced ids, so it too must be
defined. In the source a violation panics; here `validate` returns `false`. -/
def validate (mir : Mir) : Bool :=
  listNodup (Body.definedIds mir.body) &&
  (Body.freeIds mir.body).isEmpty &&
  Body.noStale mir.body

/-- Expressions without side effects; only these may be dropped by `cleanup`
(spec §8: tree-shaking removes only unused *pure* definitions). -/
def Expression.isPure : Expression → Bool
  | .int _ | .text _ | .symbol _ | .builtin _ | .reference _ | .list _
  | .struct _ | .hirId _ | .lambda _ _ _ | .parameter => true
  | _ => false

mutual

/-- Modelled from the spec: `Mir::cleanup` (mir_optimize/cleanup.rs, not
under `src/`) "removes dead definitions from scope without changing
semantics" (§4.D): a pure definition that is not the body's return value and
is not referenced by the rest of the (already cleaned) body is dropped;
nested lambda bodies are cleaned recursively. -/
def Expression.cleanup : Expression → Expression
  | .lambda parameters responsibleParameter body =>
      .lambda parameters responsibleParameter (Body.cleanup body)
  | .multiple body => .multiple (Body.cleanup body)
  | e => e

def Body.cleanup : Body → Body
  | .nil => .nil
  | .cons id e .nil => .cons id (Expression.cleanup e) .nil
  | .cons id e rest =>
      let rest := Body.cleanup rest
      if Expression.isPure e && !(Body.freeIds rest).contains id then rest
      else .cons id (Expression.cleanup e) rest

end

def Mir.cleanup (mir : Mir) : Mir :=
  { body := Body.cleanup mir.body }

/-- `Mir::checked_optimization` (mir_optimize/mod.rs lines 154–160): run
`cleanup` *before* the pass; after the pass, when `cfg!(debug_assertions)`
holds (the `debug` flag), run `validate`, whose panic on an invariant
violation is modelled by `none`. -/
def checkedOptimization (debug : Bool) (optimization : Mir → Mir)
    (mir : Mir) : Option Mir :=
  let mir := mir.cleanup
  let mir := optimization mir
  if debug then
    if validate mir then some mir else none
  else
    some mir

/-- The inner pass sequence of one `Mir::heavily_optimize` iteration
(mir_optimize/mod.rs lines 133–141): each pass wrapped in
`checked_optimization`, aborting (like the validator's panic) as soon as one
wrapped pass fails validation. The pass bodies live in modules not under
`src/`, so they are parameters. -/
def runCheckedAll (debug : Bool) (passes : List (Mir → Mir)) (mir : Mir) :
    Option Mir :=
  match passes with
  | [] => some mir
  | p :: rest =>
    match checkedOptimization debug p mir with
    | none => none
    | some mir => runCheckedAll debug rest mir

mutual

/-- Structural equality, standing in for `Mir::do_hash` (the driver loops
until the structural hash is stable; hashing is modelled as the identity,
i.e. hash equality as structural equality). -/
def Expression.beq : Expression → Expression → Bool
  | .int a, .int b => a == b
  | .text a, .text b => a == b
  | .reference a, .reference b => a == b
  | .symbol a, .symbol b => a == b
  | .builtin a, .builtin b => a == b
  | .list a, .list b => a == b
  | .struct a, .struct b => a == b
  | .hirId a, .hirId b => a == b
  | .lambda p1 r1 b1, .lambda p2 r2 b2 =>
      p1 == p2 && r1 == r2 && Body.beq b1 b2
  | .parameter, .parameter => true
  | .call f1 a1 r1, .call f2 a2 r2 => f1 == f2 && a1 == a2 && r1 == r2
  | .useModule c1 p1, .useModule c2 p2 => c1 == c2 && p1 == p2
  | .panic r1 s1, .panic r2 s2 => r1 == r2 && s1 == s2
  | .multiple b1, .multiple b2 => Body.beq b1 b2
  | .moduleStarts a, .moduleStarts b => a == b
  | .moduleEnds, .moduleEnds => true
  | .traceCallStarts h1 f1 a1 r1, .traceCallStarts h2 f2 a2 r2 =>
      h1 == h2 && f1 == f2 && a1 == a2 && r1 == r2
  | .traceCallEnds a, .traceCallEnds b => a == b
  | .traceExpressionEvaluated h1 v1, .traceExpressionEvaluated h2 v2 =>
      h1 == h2 && v1 == v2
  | .traceFoundFuzzableClosure h1 c1, .traceFoundFuzzableClosure h2 c2 =>
      h1 == h2 && c1 == c2
  | _, _ => false

def Body.beq : Body → Body → Bool
  | .nil, .nil => true
  | .cons i1 e1 r1, .cons i2 e2 r2 =>
      i1 == i2 && Expression.beq e1 e2 && Body.beq r1 r2
  | _, _ => false

end

/-- `Mir::heavily_optimize` (mir_optimize/mod.rs lines 129–147): loop the
checked pass sequence until the (structural) hash is stable. The unbounded
`loop` is given explicit fuel; running out of fuel is `none`. -/
def heavilyOptimize (debug : Bool) (passes : List (Mir → Mir)) (fuel : Nat)
    (mir : Mir) : Option Mir :=
  match fuel with
  | 0 => none
  | fuel + 1 =>
    match runCheckedAll debug passes mir with
    | none => none
    | some mir' =>
      if Body.beq mir.body mir'.body then some mir'
      else heavilyOptimize debug passes fuel mir'

end Mir

/-! ## MIR → LIR lowering

From `vm/src/mir_to_lir.rs`. The `Instruction` type and its
`apply_to_stack` method live in the vm's `lir` module, which is not under
`src/`; they are modelled from the spec (§3 lists the instruction set, §4.E
and §4.G their stack discipline: create instructions consume their operands
and push the result, `PushFromStack` duplicates, `PopMultipleBelowTop(n)`
removes `n` elements just below the top, `Call{num_args}` consumes the
function, the arguments and the responsible id). The lowering context and
`compile_lambda` follow the source. The symbolic stack is a list with its
top at the *end*; offsets count from the top (`0` = top). A Rust
`panic!`/`unwrap` in the lowering (`find_id` miss, `Parameter`/`UseModule`/
`Multiple` reached, empty instruction stream) is modelled by `none`. -/

namespace Lir

inductive Instruction where
  | createInt (value : Int)
  | createText (value : String)
  | createSymbol (value : String)
  | createBuiltin (function : Nat)
  | createList (numItems : Nat)
  | createStruct (numFields : Nat)
  | createHirId (id : String)
  | createClosure (captured : List Nat) (numArgs : Nat)
      (body : List Instruction)
  | pushFromStack (offset : Nat)
  | popMultipleBelowTop (n : Nat)
  | call (numArgs : Nat)
  | tailCall (numLocalsToPop : Nat) (numArgs : Nat)
  | ret
  | panic
  | moduleStarts (module : String)
  | moduleEnds
  | traceCallStarts (numArgs : Nat)
  | traceCallEnds
  | traceExpressionEvaluated
  | traceFoundFuzzableClosure

/-- `StackExt::pop_multiple`: pop `n` times from the end. -/
def popMultiple (stack : List Mir.Id) (n : Nat) : List Mir.Id :=
  stack.take (stack.length - n)

/-- `StackExt::find_id`: `self.iter().rev().position(|it| *it == id)`,
panicking (`none`) when the id is not on the stack. -/
def findId (stack : List Mir.Id) (id : Mir.Id) : Option Nat :=
  stack.reverse.findIdx? (· == id)

/-- `StackExt::replace_top_id`: `self.pop().unwrap(); self.push(id)`.
(The lowering only calls this right after a push, so the stack is never
empty here.) -/
def replaceTopId (stack : List Mir.Id) (id : Mir.Id) : List Mir.Id :=
  stack.dropLast ++ [id]

/-- Modelled from the spec: `Instruction::apply_to_stack` (vm `lir` module,
not under `src/`). "For each MIR expression the context emits the creating
instruction, then updates `stack`" (§4.E); create instructions consume the
operands previously pushed and push the defined id, trace instructions
consume what was pushed for them, `Call` consumes function + arguments +
responsible and pushes the result (§4.G). -/
def Instruction.applyToStack (instruction : Instruction)
    (stack : List Mir.Id) (result : Mir.Id) : List Mir.Id :=
  match instruction with
  | .createInt _ => stack ++ [result]
  | .createText _ => stack ++ [result]
  | .createSymbol _ => stack ++ [result]
  | .createBuiltin _ => stack ++ [result]
  | .createHirId _ => stack ++ [result]
  | .createList numItems => popMultiple stack numItems ++ [result]
  | .createStruct numFields => popMultiple stack (2 * numFields) ++ [result]
  | .createClosure _ _ _ => stack ++ [result]
  | .pushFromStack _ => stack ++ [result]
  | .popMultipleBelowTop n =>
    match stack.getLast? with
    | none => stack
    | some top => popMultiple stack.dropLast n ++ [top]
  | .call numArgs => popMultiple stack (numArgs + 2) ++ [result]
  | .tailCall numLocalsToPop numArgs =>
      popMultiple stack (numLocalsToPop + numArgs + 2) ++ [result]
  | .ret => stack
  | .panic => popMultiple stack 2 ++ [result]
  | .moduleStarts _ => stack
  | .moduleEnds => stack
  | .traceCallStarts numArgs => popMultiple stack (numArgs + 3)
  | .traceCallEnds => popMultiple stack 1
  | .traceExpressionEvaluated => popMultiple stack 2
  | .traceFoundFuzzableClosure => popMultiple stack 2

/-- `LoweringContext`: the symbolic stack and the emitted stream. -/
structure LoweringContext where
  stack : List Mir.Id
  instructions : List Instruction

/-- `LoweringContext::emit`: apply the instruction to the symbolic stack and
append it to the stream. -/
def LoweringContext.emit (context : LoweringContext) (id : Mir.Id)
    (instruction : Instruction) : LoweringContext :=
  { stack := instruction.applyToStack context.stack id,
    instructions := context.instructions ++ [instruction] }

/-- `LoweringContext::emit_push_from_stack`: resolve the id to an offset from
the top (panicking — `none` — when absent) and emit `PushFromStack`. -/
def LoweringContext.emitPushFromStack (context : LoweringContext)
    (id : Mir.Id) : Option LoweringContext :=
  match findId context.stack id with
  | none => none
  | some offset => some (context.emit id (.pushFromStack offset))

/-- The `for item in items { emit_push_from_stack }` loops. -/
def emitPushAll (context : LoweringContext) :
    List Mir.Id → Option LoweringContext
  | [] => some context
  | id :: rest =>
    match context.emitPushFromStack id with
    | none => none
    | some context => emitPushAll context rest

/-- The `for (key, value) in fields` loop: push key then value per field. -/
def emitPushFields (context : LoweringContext) :
    List (Mir.Id × Mir.Id) → Option LoweringContext
  | [] => some context
  | (key, value) :: rest =>
    match context.emitPushFromStack key with
    | none => none
    | some context =>
      match context.emitPushFromStack value with
      | none => none
      | some context => emitPushFields context rest

/-- `captured.iter().map(|id| self.stack.find_id(*id))`. -/
def findIds (stack : List Mir.Id) : List Mir.Id → Option (List Nat)
  | [] => some []
  | id :: rest =>
    match findId stack id with
    | none => none
    | some offset =>
      match findIds stack rest with
      | none => none
      | some offsets => some (offset :: offsets)

/-- The `for x in xs { context.stack.push(x) }` prefill loops of
`compile_lambda`. -/
def pushAllIds (stack : List Mir.Id) (ids : List Mir.Id) : List Mir.Id :=
  ids.foldl (fun s id => s ++ [id]) stack

mutual

/-- `LoweringContext::compile_expression` (mir_to_lir.rs lines 95–238).
`Parameter`, `UseModule` and `Multiple` panic ("should have been optimized
out") — modelled by `none`. -/
def compileExpression (context : LoweringContext) (id : Mir.Id) :
    Mir.Expression → Option LoweringContext
  | .int value => some (context.emit id (.createInt value))
  | .text value => some (context.emit id (.createText value))
  | .reference reference =>
    match context.emitPushFromStack reference with
    | none => none
    | some context =>
      some { context with stack := replaceTopId context.stack id }
  | .symbol symbol => some (context.emit id (.createSymbol symbol))
  | .builtin function => some (context.emit id (.createBuiltin function))
  | .list items =>
    match emitPushAll context items with
    | none => none
    | some context =>
      some (context.emit id (.createList items.length))
  | .struct fields =>
    match emitPushFields context fields with
    | none => none
    | some context =>
      some (context.emit id (.createStruct fields.length))
  | .hirId hirId => some (context.emit id (.createHirId hirId))
  | .lambda parameters responsibleParameter body =>
    let captured :=
      (Mir.Expression.lambda parameters responsibleParameter body).freeIds.dedup
    match compileLambda captured parameters responsibleParameter body with
    | none => none
    | some instructions =>
      match findIds context.stack captured with
      | none => none
      | some offsets =>
        some (context.emit id
          (.createClosure offsets parameters.length instructions))
  | .parameter => none
  | .call function arguments responsible =>
    match context.emitPushFromStack function with
    | none => none
    | some context =>
      match emitPushAll context arguments with
      | none => none
      | some context =>
        match context.emitPushFromStack responsible with
        | none => none
        | some context =>
          some (context.emit id (.call arguments.length))
  | .useModule _ _ => none
  | .panic reason responsible =>
    match context.emitPushFromStack reason with
    | none => none
    | some context =>
      match context.emitPushFromStack responsible with
      | none => none
      | some context => some (context.emit id .panic)
  | .multiple _ => none
  | .moduleStarts module => some (context.emit id (.moduleStarts module))
  | .moduleEnds => some (context.emit id .moduleEnds)
  | .traceCallStarts hirCall function arguments responsible =>
    match context.emitPushFromStack hirCall with
    | none => none
    | some context =>
      match context.emitPushFromStack function with
      | none => none
      | some context =>
        match emitPushAll context arguments with
        | none => none
        | some context =>
          match context.emitPushFromStack responsible with
          | none => none
          | some context =>
            some (context.emit id (.traceCallStarts arguments.length))
  | .traceCallEnds returnValue =>
    match context.emitPushFromStack returnValue with
    | none => none
    | some context => some (context.emit id .traceCallEnds)
  | .traceExpressionEvaluated hirExpression value =>
    match context.emitPushFromStack hirExpression with
    | none => none
    | some context =>
      match context.emitPushFromStack value with
      | none => none
      | some context => some (context.emit id .traceExpressionEvaluated)
  | .traceFoundFuzzableClosure hirDefinition closure =>
    match context.emitPushFromStack hirDefinition with
    | none => none
    | some context =>
      match context.emitPushFromStack closure with
      | none => none
      | some context => some (context.emit id .traceFoundFuzzableClosure)

/-- The `for (id, expression) in body.iter()` loop of `compile_lambda`. -/
def compileBody (context : LoweringContext) :
    Mir.Body → Option LoweringContext
  | .nil => some context
  | .cons id expression rest =>
    match compileExpression context id expression with
    | none => none
    | some context => compileBody context rest

/-- `compile_lambda` (mir_to_lir.rs lines 49–87): prefill the symbolic stack
with the captured ids, the parameters and the responsible parameter; compile
the body; then, if the final emitted instruction is a `Call`, replace it by
`TailCall { num_locals_to_pop: stack.len() - 1, num_args }` (bypassing
`emit`), otherwise emit `PopMultipleBelowTop(stack.len() - 1)` and `Return`
(with the dummy id `0`). The `instructions.last().unwrap()` on an empty
stream panics (`none`). The captured ids come from a hash set; their
iteration order is the list order here, used consistently for the prefill
and for the `CreateClosure` offsets, as in the source. -/
def compileLambda (captured : List Mir.Id) (parameters : List Mir.Id)
    (responsibleParameter : Mir.Id) (body : Mir.Body) :
    Option (List Instruction) :=
  let context : LoweringContext := { stack := [], instructions := [] }
  let context :=
    { context with stack := pushAllIds context.stack captured }
  let context :=
    { context with stack := pushAllIds context.stack parameters }
  let context :=
    { context with stack := context.stack ++ [responsibleParameter] }
  match compileBody context body with
  | none => none
  | some context =>
    match context.instructions.getLast? with
    | none => none
    | some (.call numArgs) =>
      some (context.instructions.dropLast ++
        [.tailCall (context.stack.length - 1) numArgs])
    | some _ =>
      let context :=
        context.emit 0 (.popMultipleBelowTop (context.stack.length - 1))
      let context := context.emit 0 .ret
      some context.instructions

end

end Lir

/-! ## Constant folding (tree-walking compiler's MIR optimizer)

From `src/compiler/src/compiler/optimize/constant_folding.rs`.
`Mir::run_builtin` statically evaluates a builtin call given the visible
expressions; `Some(Ok(e))` is a fold to `e`, `Some(Err(reason))` folds to a
`Panic`, `None` leaves the call intact. The match handles `Equals` and
`StructGet` only; every other arm (including `IfElse`, `IntAdd`,
`IntSubtract`, …) is commented out and falls through to `_ => return None`.

The old crate's `mir` and `builtin_functions` modules are not under `src/`:
the expression variants follow the old `Mir` usage in the optimizer sources,
the builtin list follows the (commented-out) exhaustive match in
`run_builtin`, and `Id::semantically_equals` / `Expression::is_constant` are
modelled from the spec (§4.D: "a recursive structural equality that descends
through visible constants"). -/

namespace OldMir

abbrev Id := Nat

inductive BuiltinFunction where
  | equals
  | functionRun
  | getArgumentCount
  | ifElse
  | intAdd
  | intBitLength
  | intBitwiseAnd
  | intBitwiseOr
  | intBitwiseXor
  | intCompareTo
  | intDivideTruncating
  | intModulo
  | intMultiply
  | intParse
  | intRemainder
  | intShiftLeft
  | intShiftRight
  | intSubtract
  | parallel
  | print
  | structGet
  | structGetKeys
  | structHasKey
  | textCharacters
  | textConcatenate
  | textContains
  | textEndsWith
  | textGetRange
  | textIsEmpty
  | textLength
  | textStartsWith
  | textTrimEnd
  | textTrimStart
  | tryBuiltin
  | typeOf
  deriving Repr, DecidableEq

inductive Expression where
  | int (value : Int)
  | text (value : String)
  | symbol (value : String)
  | builtin (function : BuiltinFunction)
  | reference (id : Id)
  | struct (fields : List (Id × Id))
  | lambda (parameters : List Id) (responsibleParameter : Id)
      (body : List (Id × Expression))
  | call (function : Id) (arguments : List Id) (responsible : Id)
  | useModule (currentModule : Id) (relativePath : Id)
  | needs (condition : Id) (reason : Id) (responsible : Id)
  | panic (reason : Id) (responsible : Id)
  | multiple (body : List (Id × Expression))
  | errorExpr

/-- `VisibleExpressions`, as an association list from id to expression. -/
abbrev Visible := List (Id × Expression)

def Visible.get (visible : Visible) (id : Id) : Option Expression :=
  (visible.find? (fun p => p.1 == id)).map Prod.snd

/-- Modelled from the spec: `Expression::is_constant` — an expression only
built from literals and visible constants (§4.D). References are followed
through `visible` with fuel. -/
def isConstantFuel (visible : Visible) : Nat → Expression → Bool
  | 0, _ => false
  | _ + 1, .int _ => true
  | _ + 1, .text _ => true
  | _ + 1, .symbol _ => true
  | _ + 1, .builtin _ => true
  | fuel + 1, .reference id =>
    match Visible.get visible id with
    | none => false
    | some e => isConstantFuel visible fuel e
  | fuel + 1, .struct fields =>
    fields.all fun p =>
      (match Visible.get visible p.1 with
       | none => false
       | some e => isConstantFuel visible fuel e) &&
      (match Visible.get visible p.2 with
       | none => false
       | some e => isConstantFuel visible fuel e)
  | _ + 1, _ => false

def Expression.isConstant (e : Expression) (visible : Visible) : Bool :=
  isConstantFuel visible (visible.length + 1) e

/-- Modelled from the spec: `Id::semantically_equals` — syntactic equality of
the ids, or "a recursive structural equality that descends through visible
constants" (§4.D); `none` when equality cannot be decided statically. -/
def semanticallyEqualsFuel (visible : Visible) :
    Nat → Id → Id → Option Bool
  | 0, _, _ => none
  | fuel + 1, a, b =>
    if a = b then some true
    else
      match Visible.get visible a, Visible.get visible b with
      | some (.reference a'), _ => semanticallyEqualsFuel visible fuel a' b
      | _, some (.reference b') => semanticallyEqualsFuel visible fuel a b'
      | some (.int x), some (.int y) => some (x == y)
      | some (.text x), some (.text y) => some (x == y)
      | some (.symbol x), some (.symbol y) => some (x == y)
      | _, _ => none

def Id.semanticallyEquals (a b : Id) (visible : Visible) : Option Bool :=
  semanticallyEqualsFuel visible (visible.length + 1) a b

/-- `Mir::run_builtin` (constant_folding.rs lines 70–173): only `Equals` and
`StructGet` are recognized; everything else falls through to
`_ => return None`. -/
def runBuiltin (builtin : BuiltinFunction) (arguments : List Id)
    (visible : Visible) : Option (Except String Expression) :=
  match builtin with
  | .equals =>
    match arguments with
    | [a, b] =>
      match (if a == b then some true else Id.semanticallyEquals a b visible)
      with
      | none => none
      | some areEqual =>
        some (.ok (.symbol (if areEqual then "True" else "False")))
    | _ => some (.error "wrong number of arguments")
  | .structGet =>
    match arguments with
    | [structId, keyId] =>
      match Visible.get visible structId with
      | some (.struct fields) =>
        if (fields.all fun p =>
              match Visible.get visible p.1 with
              | none => false
              | some keyExpr => keyExpr.isConstant visible) &&
            (match Visible.get visible keyId with
             | none => false
             | some keyExpr => keyExpr.isConstant visible) then
          match fields.find? (fun p =>
              (Id.semanticallyEquals p.1 keyId visible).getD false) with
          | some p => some (.ok (.reference p.2))
          | none =>
            some (.error
              s!"Struct access will panic because key {keyId} isn't in there.")
        else
          none
      | _ => none
    | _ => some (.error "wrong number of arguments")
  | _ => none

end OldMir

/-! ## Source → RCST parser

From `src/compiler/src/compiler/string_to_rcst.rs`. All parsers take an
input (`List Char`, mirroring `&str` advanced char by char) and return the
remaining input plus the parsed node(s); `none` is a non-match. The `Rcst`
type, its `Display` (the textual representation, `render` here),
`IsMultiline` and `SplitOuterTrailingWhitespace` live in the `rcst` module,
which for this parser version is not under `src/`; they are modelled from
the sibling `new-new-packages/compiler/src/compiler/rcst.rs` (an earlier
version of the same file, under `src/`), the spec's description of the RCST
as a loss-less tree whose node text concatenates to the input, and the
parser's construction sites.

Rust's unbounded `loop`s and the mutual recursion of `expression` with
`list`/`struct`/`parenthesized`/`lambda`/`call`/`assignment`/`body` are
given explicit fuel so that every definition is structurally recursive and
kernel-evaluable: each loop gets fuel bounded by the input length (every
continuing iteration consumes at least one character), and the recursion
knot is tied once through `expressionFuel`. Running out of fuel makes a
loop stop early or `expression` fail; the fuel bounds chosen at the call
sites are large enough that this never happens on the inputs evaluated
here. -/

namespace Parse

abbrev Input := List Char

inductive RcstError where
  | curlyBraceNotClosed
  | identifierContainsNonAlphanumericAscii
  | intContainsNonDigits
  | listItemMissesValue
  | listNotClosed
  | openingParenthesisWithoutExpression
  | parenthesisNotClosed
  | structFieldMissesColon
  | structFieldMissesKey
  | structFieldMissesValue
  | structNotClosed
  | symbolContainsNonAlphanumericAscii
  | textNotClosed
  | textNotSufficientlyIndented
  | tooMuchWhitespace
  | unexpectedCharacters
  | unparsedRest
  | weirdWhitespace
  | weirdWhitespaceInIndentation
  deriving Repr, DecidableEq

inductive Rcst where
  | equalsSign
  | comma
  | dot
  | colon
  | colonEqualsSign
  | openingParenthesis
  | closingParenthesis
  | openingBracket
  | closingBracket
  | openingCurlyBrace
  | closingCurlyBrace
  | arrow
  | doubleQuote
  | octothorpe
  | whitespace (value : List Char)
  | newline (value : List Char)
  | comment (octothorpe : Rcst) (comment : List Char)
  | trailingWhitespace (child : Rcst) (whitespace : List Rcst)
  | identifier (value : List Char)
  | symbol (value : List Char)
  | int (value : Nat) (string : List Char)
  | text (openingQuote : Rcst) (parts : List Rcst) (closingQuote : Rcst)
  | textPart (value : List Char)
  | parenthesized (openingParenthesis : Rcst) (inner : Rcst)
      (closingParenthesis : Rcst)
  | call (receiver : Rcst) (arguments : List Rcst)
  | listRcst (openingParenthesis : Rcst) (items : List Rcst)
      (closingParenthesis : Rcst)
  | listItem (value : Rcst) (comma : Option Rcst)
  | structRcst (openingBracket : Rcst) (fields : List Rcst)
      (closingBracket : Rcst)
  | structField (key : Rcst) (colon : Rcst) (value : Rcst)
      (comma : Option Rcst)
  | structAccess (struct : Rcst) (dot : Rcst) (key : Rcst)
  | lambda (openingCurlyBrace : Rcst)
      (parametersAndArrow : Option (List Rcst × Rcst)) (body : List Rcst)
      (closingCurlyBrace : Rcst)
  | assignment (name : Rcst) (parameters : List Rcst)
      (assignmentSign : Rcst) (body : List Rcst)
  | error (unparsableInput : List Char) (error : RcstError)

/-- The textual representation of a node (`Display for Rcst`): every token
prints itself, containers print their children in source order, an `Error`
prints its `unparsable_input`. Fuel keeps the nested recursion structural;
it only ever needs to exceed the tree depth. -/
def renderFuel : Nat → Rcst → List Char
  | 0, _ => []
  | fuel + 1, r =>
    match r with
    | .equalsSign => ['=']
    | .comma => [',']
    | .dot => ['.']
    | .colon => [':']
    | .colonEqualsSign => [':', '=']
    | .openingParenthesis => ['(']
    | .closingParenthesis => [')']
    | .openingBracket => ['[']
    | .closingBracket => [']']
    | .openingCurlyBrace => ['\x7b']
    | .closingCurlyBrace => ['\x7d']
    | .arrow => ['-', '>']
    | .doubleQuote => ['"']
    | .octothorpe => ['#']
    | .whitespace value => value
    | .newline value => value
    | .comment oct c => renderFuel fuel oct ++ c
    | .trailingWhitespace child ws =>
      renderFuel fuel child ++ (ws.map (renderFuel fuel)).flatten
    | .identifier value => value
    | .symbol value => value
    | .int _ string => string
    | .text openingQuote parts closingQuote =>
      renderFuel fuel openingQuote ++ (parts.map (renderFuel fuel)).flatten ++
        renderFuel fuel closingQuote
    | .textPart value => value
    | .parenthesized o inner c => renderFuel fuel o ++ renderFuel fuel inner ++
        renderFuel fuel c
    | .call receiver arguments =>
      renderFuel fuel receiver ++ (arguments.map (renderFuel fuel)).flatten
    | .listRcst o items c =>
      renderFuel fuel o ++ (items.map (renderFuel fuel)).flatten ++
        renderFuel fuel c
    | .listItem value comma =>
      renderFuel fuel value ++
        (match comma with | some c => renderFuel fuel c | none => [])
    | .structRcst o fields c =>
      renderFuel fuel o ++ (fields.map (renderFuel fuel)).flatten ++
        renderFuel fuel c
    | .structField key colonR value comma =>
      renderFuel fuel key ++ renderFuel fuel colonR ++ renderFuel fuel value ++
        (match comma with | some c => renderFuel fuel c | none => [])
    | .structAccess structR dotR key =>
      renderFuel fuel structR ++ renderFuel fuel dotR ++ renderFuel fuel key
    | .lambda ocb parametersAndArrow body ccb =>
      renderFuel fuel ocb ++
        (match parametersAndArrow with
         | some (parameters, arrowR) =>
           (parameters.map (renderFuel fuel)).flatten ++ renderFuel fuel arrowR
         | none => []) ++
        (body.map (renderFuel fuel)).flatten ++ renderFuel fuel ccb
    | .assignment name parameters sign body =>
      renderFuel fuel name ++ (parameters.map (renderFuel fuel)).flatten ++
        renderFuel fuel sign ++ (body.map (renderFuel fuel)).flatten
    | .error unparsableInput _ => unparsableInput

def render (rcsts : List Rcst) : List Char :=
  (rcsts.map (renderFuel 1000)).flatten

/-- Modelled: Rust `char::is_whitespace` (Unicode `White_Space`). -/
def charIsWhitespace (c : Char) : Bool :=
  c = ' ' || c = '\t' || c = '\n' || c = '\r' ||
  c = '\x0b' || c = '\x0c' || c.val = 0x85 || c.val = 0xA0 ||
  c.val = 0x1680 || (0x2000 ≤ c.val && c.val ≤ 0x200A) ||
  c.val = 0x2028 || c.val = 0x2029 || c.val = 0x202F || c.val = 0x205F ||
  c.val = 0x3000

/-- Modelled: Rust `char::is_lowercase`; exact on ASCII, which all inputs
evaluated here use. -/
def charIsLowercase (c : Char) : Bool := 'a' ≤ c && c ≤ 'z'

/-- Modelled: Rust `char::is_uppercase`; exact on ASCII. -/
def charIsUppercase (c : Char) : Bool := 'A' ≤ c && c ≤ 'Z'

def charIsAsciiDigit (c : Char) : Bool := '0' ≤ c && c ≤ '9'

def charIsAsciiAlphanumeric (c : Char) : Bool :=
  charIsAsciiDigit c || charIsUppercase c || charIsLowercase c

def meaningfulPunctuation : List Char := "()[]:,\x7b\x7d->=.".toList

def supportedWhitespace : List Char := " \r\n\t".toList

/-- `whitespace_indentation_score` for a single character: tabs weigh 2,
other whitespace 1. -/
def whitespaceIndentationScore (c : Char) : Nat := if c = '\t' then 2 else 1

def whitespaceScore (whitespace : List Char) : Nat :=
  (whitespace.map whitespaceIndentationScore).sum

def natFromDigits (chars : List Char) : Nat :=
  chars.foldl (fun acc c => acc * 10 + (c.toNat - '0'.toNat)) 0

/-- `literal`: `input.strip_prefix(literal)`. -/
def literal : Input → List Char → Option Input
  | input, [] => some input
  | [], _ :: _ => none
  | c :: rest, l :: ls => if c = l then literal rest ls else none

def equalsSign (input : Input) : Option (Input × Rcst) :=
  (literal input ['=']).map fun it => (it, .equalsSign)
def comma (input : Input) : Option (Input × Rcst) :=
  (literal input [',']).map fun it => (it, .comma)
def dot (input : Input) : Option (Input × Rcst) :=
  (literal input ['.']).map fun it => (it, .dot)
def colon (input : Input) : Option (Input × Rcst) :=
  (literal input [':']).map fun it => (it, .colon)
def colonEqualsSign (input : Input) : Option (Input × Rcst) :=
  (literal input [':', '=']).map fun it => (it, .colonEqualsSign)
def openingBracket (input : Input) : Option (Input × Rcst) :=
  (literal input ['[']).map fun it => (it, .openingBracket)
def closingBracket (input : Input) : Option (Input × Rcst) :=
  (literal input [']']).map fun it => (it, .closingBracket)
def openingParenthesis (input : Input) : Option (Input × Rcst) :=
  (literal input ['(']).map fun it => (it, .openingParenthesis)
def closingParenthesis (input : Input) : Option (Input × Rcst) :=
  (literal input [')']).map fun it => (it, .closingParenthesis)
def openingCurlyBrace (input : Input) : Option (Input × Rcst) :=
  (literal input ['\x7b']).map fun it => (it, .openingCurlyBrace)
def closingCurlyBrace (input : Input) : Option (Input × Rcst) :=
  (literal input ['\x7d']).map fun it => (it, .closingCurlyBrace)
def arrow (input : Input) : Option (Input × Rcst) :=
  (literal input ['-', '>']).map fun it => (it, .arrow)
def doubleQuote (input : Input) : Option (Input × Rcst) :=
  (literal input ['"']).map fun it => (it, .doubleQuote)
def octothorpe (input : Input) : Option (Input × Rcst) :=
  (literal input ['#']).map fun it => (it, .octothorpe)

/-- `newline`: tries `"\n"` then `"\r\n"`, in that order. -/
def newline (input : Input) : Option (Input × Rcst) :=
  match literal input ['\n'] with
  | some it => some (it, .newline ['\n'])
  | none =>
    match literal input ['\r', '\n'] with
    | some it => some (it, .newline ['\r', '\n'])
    | none => none

/-- The character loop of `word`. -/
def wordLoop : Nat → Input → List Char → Input × List Char
  | 0, input, chars => (input, chars)
  | fuel + 1, input, chars =>
    match input with
    | [] => (input, chars)
    | c :: rest =>
      if charIsWhitespace c || meaningfulPunctuation.contains c then
        (c :: rest, chars)
      else
        wordLoop fuel rest (chars ++ [c])

/-- `word`: maximal run of characters that are neither whitespace nor
meaningful punctuation; `none` when empty. -/
def word (input : Input) : Option (Input × List Char) :=
  let (input, chars) := wordLoop (input.length + 1) input []
  if chars.isEmpty then none else some (input, chars)

def identifier (input : Input) : Option (Input × Rcst) :=
  match word input with
  | none => none
  | some (input, w) =>
    if w = "✨".toList then some (input, .identifier w)
    else
      match w.head? with
      | none => none
      | some c =>
        if !charIsLowercase c then none
        else if w.all charIsAsciiAlphanumeric then some (input, .identifier w)
        else
          some (input, .error w .identifierContainsNonAlphanumericAscii)

def symbol (input : Input) : Option (Input × Rcst) :=
  match word input with
  | none => none
  | some (input, w) =>
    match w.head? with
    | none => none
    | some c =>
      if !charIsUppercase c then none
      else if w.all charIsAsciiAlphanumeric then some (input, .symbol w)
      else some (input, .error w .symbolContainsNonAlphanumericAscii)

def int (input : Input) : Option (Input × Rcst) :=
  match word input with
  | none => none
  | some (input, w) =>
    match w.head? with
    | none => none
    | some c =>
      if !charIsAsciiDigit c then none
      else if w.all charIsAsciiDigit then
        some (input, .int (natFromDigits w) w)
      else some (input, .error w .intContainsNonDigits)

/-- The character loop of `single_line_whitespace`: spaces are fine, other
supported non-newline whitespace (tabs) is weird. -/
def slwLoop : Nat → Input → List Char → Bool → Input × List Char × Bool
  | 0, input, chars, hasError => (input, chars, hasError)
  | fuel + 1, input, chars, hasError =>
    match input with
    | [] => (input, chars, hasError)
    | c :: rest =>
      if c = ' ' then slwLoop fuel rest (chars ++ [c]) hasError
      else if supportedWhitespace.contains c && c ≠ '\n' && c ≠ '\r' then
        slwLoop fuel rest (chars ++ [c]) true
      else (c :: rest, chars, hasError)

def singleLineWhitespace (input : Input) : Option (Input × Rcst) :=
  let (input, whitespace, hasError) := slwLoop (input.length + 1) input [] false
  if hasError then some (input, .error whitespace .weirdWhitespace)
  else if !whitespace.isEmpty then some (input, .whitespace whitespace)
  else none

/-- The character loop of `comment`: everything up to a newline or the end. -/
def commentLoop : Nat → Input → List Char → Input × List Char
  | 0, input, chars => (input, chars)
  | fuel + 1, input, chars =>
    match input with
    | [] => (input, chars)
    | '\n' :: rest => ('\n' :: rest, chars)
    | '\r' :: rest => ('\r' :: rest, chars)
    | c :: rest => commentLoop fuel rest (chars ++ [c])

def comment (input : Input) : Option (Input × Rcst) :=
  match octothorpe input with
  | none => none
  | some (input, oct) =>
    let (input, chars) := commentLoop (input.length + 1) input []
    some (input, .comment oct chars)

/-- The `while indentation_score < 2 * indentation` loop of
`leading_indentation`. -/
def liLoop : Nat → Input → List Char → Bool → Nat → Nat →
    Option (Input × List Char × Bool)
  | 0, _, _, _, _, _ => none
  | fuel + 1, input, chars, hasWeird, score, target =>
    if score < target then
      match input with
      | [] => none
      | c :: rest =>
        if c = '\n' || c = '\r' then none
        else if c = ' ' then
          liLoop fuel rest (chars ++ [c]) hasWeird (score + 1) target
        else if charIsWhitespace c then
          liLoop fuel rest (chars ++ [c]) true
            (score + whitespaceIndentationScore c) target
        else none
    else some (input, chars, hasWeird)

def leadingIndentation (input : Input) (indentation : Nat) :
    Option (Input × Rcst) :=
  match liLoop (input.length + 1) input [] false 0 (2 * indentation) with
  | none => none
  | some (input, whitespace, hasWeird) =>
    some (input,
      if hasWeird then .error whitespace .weirdWhitespaceInIndentation
      else .whitespace whitespace)

/-- The main loop of `whitespaces_and_newlines`: `input`/`parts` is the
committed state, `newInput`/`newParts` the speculative state; a comment or
sufficient leading indentation commits, a newline commits everything before
it and stays speculative itself, and the loop stops without progress. -/
def wnlLoop (indentation : Nat) (alsoComments : Bool) :
    Nat → Input → List Rcst → Input → List Rcst → Input × List Rcst
  | 0, input, parts, _, _ => (input, parts)
  | fuel + 1, input, parts, newInput, newParts =>
    let start := newInput
    let (input, parts, newInput, newParts) :=
      if alsoComments then
        match comment newInput with
        | some (nni, ws) => (nni, parts ++ (newParts ++ [ws]), nni, [])
        | none => (input, parts, newInput, newParts)
      else (input, parts, newInput, newParts)
    let (input, parts, newInput, newParts) :=
      match newline newInput with
      | some (nni, nl) => (newInput, parts ++ newParts, nni, [nl])
      | none => (input, parts, newInput, newParts)
    let (input, parts, newInput, newParts) :=
      match leadingIndentation newInput indentation with
      | some (nni, ws) => (nni, parts ++ (newParts ++ [ws]), nni, [])
      | none =>
        match singleLineWhitespace newInput with
        | some (nni, ws) => (input, parts, nni, newParts ++ [ws])
        | none => (input, parts, newInput, newParts)
    if newInput = start then (input, parts)
    else wnlLoop indentation alsoComments fuel input parts newInput newParts

/-- `whitespaces_and_newlines` (string_to_rcst.rs lines 453–515). -/
def whitespacesAndNewlines (input : Input) (indentation : Nat)
    (alsoComments : Bool) : Input × List Rcst :=
  let (input, parts) :=
    match singleLineWhitespace input with
    | some (ni, ws) => (ni, [ws])
    | none => (input, ([] : List Rcst))
  let (input, parts) :=
    wnlLoop indentation alsoComments (input.length + 1) input parts input []
  (input, parts.filter fun it =>
    match it with
    | .whitespace ws => !ws.isEmpty
    | _ => true)

/-- `Rcst::wrap_in_whitespace`. -/
def wrapInWhitespace (rcst : Rcst) (whitespace : List Rcst) : Rcst :=
  if whitespace.isEmpty then rcst
  else
    match rcst with
    | .trailingWhitespace child selfWhitespace =>
      .trailingWhitespace child (selfWhitespace ++ whitespace)
    | _ => .trailingWhitespace rcst whitespace

/-- `last = xs.pop().unwrap(); xs.push(last.wrap_in_whitespace(ws))` — the
recurring wrap-the-last-element step (identity on an empty list, which the
source never reaches). -/
def wrapLast (rcsts : List Rcst) (whitespace : List Rcst) : List Rcst :=
  match rcsts.getLast? with
  | none => rcsts
  | some last => rcsts.dropLast ++ [wrapInWhitespace last whitespace]

/-- Modelled: `IsMultiline for Rcst` (from the sibling `rcst.rs`): a node is
multiline iff it contains a `Newline`; an `Error` iff its unparsable input
contains `'\n'`. Fuel keeps the nested recursion structural. -/
def isMultilineFuel : Nat → Rcst → Bool
  | 0, _ => false
  | fuel + 1, r =>
    match r with
    | .newline _ => true
    | .comment _ _ => false
    | .trailingWhitespace child ws =>
      isMultilineFuel fuel child || ws.any (isMultilineFuel fuel)
    | .text oq parts cq =>
      isMultilineFuel fuel oq || parts.any (isMultilineFuel fuel) ||
        isMultilineFuel fuel cq
    | .parenthesized o inner c =>
      isMultilineFuel fuel o || isMultilineFuel fuel inner ||
        isMultilineFuel fuel c
    | .call receiver arguments =>
      isMultilineFuel fuel receiver || arguments.any (isMultilineFuel fuel)
    | .listRcst o items c =>
      isMultilineFuel fuel o || items.any (isMultilineFuel fuel) ||
        isMultilineFuel fuel c
    | .listItem value comma =>
      isMultilineFuel fuel value ||
        (match comma with
         | some c => isMultilineFuel fuel c
         | none => false)
    | .structRcst o fields c =>
      isMultilineFuel fuel o || fields.any (isMultilineFuel fuel) ||
        isMultilineFuel fuel c
    | .structField key colonR value comma =>
      isMultilineFuel fuel key || isMultilineFuel fuel colonR ||
        isMultilineFuel fuel value ||
        (match comma with
         | some c => isMultilineFuel fuel c
         | none => false)
    | .structAccess structR dotR key =>
      isMultilineFuel fuel structR || isMultilineFuel fuel dotR ||
        isMultilineFuel fuel key
    | .lambda ocb parametersAndArrow body ccb =>
      isMultilineFuel fuel ocb ||
        (match parametersAndArrow with
         | some (parameters, arrowR) =>
           parameters.any (isMultilineFuel fuel) || isMultilineFuel fuel arrowR
         | none => false) ||
        body.any (isMultilineFuel fuel) || isMultilineFuel fuel ccb
    | .assignment name parameters sign body =>
      isMultilineFuel fuel name || parameters.any (isMultilineFuel fuel) ||
        isMultilineFuel fuel sign || body.any (isMultilineFuel fuel)
    | .error unparsableInput _ => unparsableInput.contains '\n'
    | _ => false

def Rcst.isMultiline (r : Rcst) : Bool := isMultilineFuel 1000 r

def rcstsAreMultiline (rcsts : List Rcst) : Bool := rcsts.any Rcst.isMultiline

/-- Modelled: `SplitOuterTrailingWhitespace for Rcst` — peel the outer
`TrailingWhitespace` wrapper off, returning the whitespace and the child
(render-preserving, per the loss-less RCST contract). -/
def Rcst.splitOuterTrailingWhitespace (r : Rcst) : List Rcst × Rcst :=
  match r with
  | .trailingWhitespace child ws => (ws, child)
  | _ => ([], r)

/-- Modelled: `SplitOuterTrailingWhitespace for Vec<Rcst>` — split the last
element's trailing whitespace off. -/
def splitListOtw (rcsts : List Rcst) : List Rcst × List Rcst :=
  match rcsts.getLast? with
  | none => ([], rcsts)
  | some last =>
    let (ws, child) := last.splitOuterTrailingWhitespace
    (ws, rcsts.dropLast ++ [child])

/-- Modelled: `SplitOuterTrailingWhitespace` for the
`(assignment_sign, body)` pair: the whitespace comes off the body's last
element, or off the sign when the body is empty. -/
def splitPairOtw (sign : Rcst) (body : List Rcst) :
    List Rcst × (Rcst × List Rcst) :=
  if body.isEmpty then
    let (ws, sign') := sign.splitOuterTrailingWhitespace
    (ws, (sign', []))
  else
    let (ws, body') := splitListOtw body
    (ws, (sign, body'))

/-- The character loop of `text`: plain characters accumulate into the
current line; `"` closes; end of input is `TextNotClosed`; a newline pushes
the line, consumes indented continuation whitespace and fails with
`TextNotSufficientlyIndented` when the next line is not indented enough. -/
def textLoop (indentation : Nat) :
    Nat → Input → List Char → List Rcst → Input × List Rcst × Rcst
  | 0, input, line, parts =>
    (input, parts ++ [.textPart line], .error [] .textNotClosed)
  | fuel + 1, input, line, parts =>
    match input with
    | [] => (input, parts ++ [.textPart line], .error [] .textNotClosed)
    | '"' :: rest => (rest, parts ++ [.textPart line], .doubleQuote)
    | '\n' :: rest =>
      let parts := parts ++ [.textPart line]
      let (i, whitespace) :=
        whitespacesAndNewlines ('\n' :: rest) (indentation + 1) false
      let parts := parts ++ whitespace
      match i with
      | '\n' :: _ => (i, parts, .error [] .textNotSufficientlyIndented)
      | _ => textLoop indentation fuel i [] parts
    | c :: rest => textLoop indentation fuel rest (line ++ [c]) parts

def text (input : Input) (indentation : Nat) : Option (Input × Rcst) :=
  match doubleQuote input with
  | none => none
  | some (input, openingQuote) =>
    let (input, parts, closingQuote) :=
      textLoop indentation (input.length + 1) input [] []
    some (input, .text openingQuote parts closingQuote)

/-- The recursive knot: the type of the `expression` parser, passed to every
parser that (indirectly) calls it, and tied once in `expressionFuel`. -/
abbrev ExprP := Input → Nat → Bool → Option (Input × Rcst)

/-- The `loop { dot; identifier; StructAccess }` suffix loop of
`expression`. -/
def structAccessLoop : Nat → Input → Rcst → Option (Input × Rcst)
  | 0, input, expression => some (input, expression)
  | fuel + 1, input, expression =>
    match dot input with
    | none => some (input, expression)
    | some (newInput, dotR) =>
      match identifier newInput with
      | none => some (input, expression)
      | some (newInput, key) =>
        structAccessLoop fuel newInput (.structAccess expression dotR key)

/-- The item loop of `run_of_expressions`: wrap the last expression in the
consumed whitespace, then parse another expression (or, after multiline
whitespace, a dangling closing token); stop — with the whitespace already
consumed and attached — when neither parses. -/
def roeLoop (rec : ExprP) (indentation : Nat) :
    Nat → Input → List Rcst → Bool → Input × List Rcst
  | 0, input, expressions, _ => (input, expressions)
  | fuel + 1, input, expressions, hasMultilineWhitespace =>
    let (i, whitespace) := whitespacesAndNewlines input (indentation + 1) true
    let hasMultilineWhitespace :=
      hasMultilineWhitespace || rcstsAreMultiline whitespace
    let indentation2 :=
      if hasMultilineWhitespace then indentation + 1 else indentation
    let expressions := wrapLast expressions whitespace
    match rec i indentation2 hasMultilineWhitespace with
    | some (i2, expr) =>
      roeLoop rec indentation fuel i2 (expressions ++ [expr])
        hasMultilineWhitespace
    | none =>
      let fallback :=
        (closingParenthesis i).orElse fun _ =>
        (closingBracket i).orElse fun _ =>
        (closingCurlyBrace i).orElse fun _ =>
        arrow i
      match fallback with
      | some (i2, cst) =>
        if hasMultilineWhitespace then
          roeLoop rec indentation fuel i2 (expressions ++ [cst])
            hasMultilineWhitespace
        else (i, expressions)
      | none => (i, expressions)

def runOfExpressionsF (rec : ExprP) (input : Input) (indentation : Nat) :
    Option (Input × List Rcst) :=
  match rec input indentation false with
  | none => none
  | some (input, expr) =>
    some (roeLoop rec indentation (input.length + 1) input [expr] false)

def callF (rec : ExprP) (input : Input) (indentation : Nat) :
    Option (Input × Rcst) :=
  match runOfExpressionsF rec input indentation with
  | none => none
  | some (input, expressions) =>
    if expressions.length < 2 then none
    else
      let (whitespace, expressions) := splitListOtw expressions
      match expressions with
      | receiver :: arguments =>
        some (input, wrapInWhitespace (.call receiver arguments) whitespace)
      | [] => none

/-- The item loop of `list`. Note the abort path: when neither a value nor a
comma is found, the loop breaks returning the *un-advanced* `outerInput`,
although the whitespace parsed at the top of the iteration has already been
attached to the opening parenthesis or the last item. -/
def listLoop (rec : ExprP) (indentation : Nat) :
    Nat → Input → Rcst → List Rcst → Nat → Bool →
    Input × Rcst × List Rcst × Bool
  | 0, outerInput, openingParen, items, _, hasComma =>
    (outerInput, openingParen, items, hasComma)
  | fuel + 1, outerInput, openingParen, items, itemsIndentation, hasComma =>
    let input := outerInput
    let (input, whitespace) :=
      whitespacesAndNewlines input (indentation + 1) true
    let itemsIndentation :=
      if rcstsAreMultiline whitespace then indentation + 1
      else itemsIndentation
    let (openingParen, items) :=
      if items.isEmpty then (wrapInWhitespace openingParen whitespace, items)
      else (openingParen, wrapLast items whitespace)
    let (input, value, hasValue) :=
      match rec input itemsIndentation true with
      | some (input, value) => (input, value, true)
      | none => (input, Rcst.error [] .listItemMissesValue, false)
    let (input, whitespace) :=
      whitespacesAndNewlines input (itemsIndentation + 1) true
    let itemsIndentation :=
      if rcstsAreMultiline whitespace then indentation + 1
      else itemsIndentation
    let value := wrapInWhitespace value whitespace
    let (input, commaR) :=
      match comma input with
      | some (input, commaR) => (input, some commaR)
      | none => (input, none)
    if !hasValue && commaR.isNone then
      (outerInput, openingParen, items, hasComma)
    else
      listLoop rec indentation fuel input openingParen
        (items ++ [Rcst.listItem value commaR]) itemsIndentation
        (hasComma || commaR.isSome)

/-- `list` (string_to_rcst.rs lines 1063–1192). The `'handleEmptyList` block
re-parses whitespace from the *original* input (which still starts with the
parenthesis), exactly as the source does. -/
def listF (rec : ExprP) (input : Input) (indentation : Nat) :
    Option (Input × Rcst) :=
  match openingParenthesis input with
  | none => none
  | some (outerInput, openingParen) =>
    let emptyList : Option (Input × Rcst) :=
      let (input2, leadingWhitespace) :=
        whitespacesAndNewlines input (indentation + 1) true
      let openingParen2 := wrapInWhitespace openingParen leadingWhitespace
      match comma input2 with
      | none => none
      | some (input2, commaR) =>
        let (input2, trailingWs) :=
          whitespacesAndNewlines input2 (indentation + 1) true
        let commaR := wrapInWhitespace commaR trailingWs
        match closingParenthesis input2 with
        | none => none
        | some (input2, closingParen) =>
          some (input2, .listRcst openingParen2 [commaR] closingParen)
    match emptyList with
    | some result => some result
    | none =>
      let (outerInput, openingParen, items, hasComma) :=
        listLoop rec indentation (outerInput.length + 1) outerInput
          openingParen [] indentation false
      if !hasComma then none
      else
        let input := outerInput
        let (newInput, whitespace) :=
          whitespacesAndNewlines input indentation true
        let (input, openingParen, items, closingParen) :=
          match closingParenthesis newInput with
          | some (input2, closingParen) =>
            if items.isEmpty then
              (input2, wrapInWhitespace openingParen whitespace, items,
                closingParen)
            else
              (input2, openingParen, wrapLast items whitespace, closingParen)
          | none =>
            (input, openingParen, items, Rcst.error [] .listNotClosed)
        some (input, .listRcst openingParen items closingParen)

/-- The field loop of `struct_`. Same abort path as `listLoop`: on break the
whitespace attached at the top of the iteration stays attached while the
input rolls back to `outerInput`. -/
def structLoop (rec : ExprP) (indentation : Nat) :
    Nat → Input → Rcst → List Rcst → Nat → Input × Rcst × List Rcst
  | 0, outerInput, openingBr, fields, _ => (outerInput, openingBr, fields)
  | fuel + 1, outerInput, openingBr, fields, fieldsIndentation =>
    let input := outerInput
    let (input, whitespace) :=
      whitespacesAndNewlines input (indentation + 1) true
    let fieldsIndentation :=
      if rcstsAreMultiline whitespace then indentation + 1
      else fieldsIndentation
    let (openingBr, fields) :=
      if fields.isEmpty then (wrapInWhitespace openingBr whitespace, fields)
      else (openingBr, wrapLast fields whitespace)
    let (input, key, hasKey) :=
      match rec input fieldsIndentation true with
      | some (input, key) => (input, key, true)
      | none => (input, Rcst.error [] .structFieldMissesKey, false)
    let (input, whitespace) :=
      whitespacesAndNewlines input (fieldsIndentation + 1) true
    let fieldsIndentation :=
      if rcstsAreMultiline whitespace then indentation + 1
      else fieldsIndentation
    let key := wrapInWhitespace key whitespace
    let (input, colonR, hasColon) :=
      match colon input with
      | some (input, colonR) => (input, colonR, true)
      | none => (input, Rcst.error [] .structFieldMissesColon, false)
    let (input, whitespace) :=
      whitespacesAndNewlines input (fieldsIndentation + 1) true
    let fieldsIndentation :=
      if rcstsAreMultiline whitespace then indentation + 1
      else fieldsIndentation
    let colonR := wrapInWhitespace colonR whitespace
    let (input, value, hasValue) :=
      match rec input (fieldsIndentation + 1) true with
      | some (input, value) => (input, value, true)
      | none => (input, Rcst.error [] .structFieldMissesValue, false)
    let (input, whitespace) :=
      whitespacesAndNewlines input (fieldsIndentation + 1) true
    let fieldsIndentation :=
      if rcstsAreMultiline whitespace then indentation + 1
      else fieldsIndentation
    let value := wrapInWhitespace value whitespace
    let (input, commaR) :=
      match comma input with
      | some (input, commaR) => (input, some commaR)
      | none => (input, none)
    if !hasKey && !hasColon && !hasValue && commaR.isNone then
      (outerInput, openingBr, fields)
    else
      structLoop rec indentation fuel input openingBr
        (fields ++ [Rcst.structField key colonR value commaR])
        fieldsIndentation

/-- `struct_` (string_to_rcst.rs lines 1308–1438). -/
def structF (rec : ExprP) (input : Input) (indentation : Nat) :
    Option (Input × Rcst) :=
  match openingBracket input with
  | none => none
  | some (outerInput, openingBr) =>
    let (outerInput, openingBr, fields) :=
      structLoop rec indentation (outerInput.length + 1) outerInput
        openingBr [] indentation
    let input := outerInput
    let (newInput, whitespace) := whitespacesAndNewlines input indentation true
    let (input, openingBr, fields, closingBr) :=
      match closingBracket newInput with
      | some (input2, closingBr) =>
        if fields.isEmpty then
          (input2, wrapInWhitespace openingBr whitespace, fields, closingBr)
        else (input2, openingBr, wrapLast fields whitespace, closingBr)
      | none => (input, openingBr, fields, Rcst.error [] .structNotClosed)
    some (input, .structRcst openingBr fields closingBr)

/-- `parenthesized` (string_to_rcst.rs lines 1527–1566). -/
def parenthesizedF (rec : ExprP) (input : Input) (indentation : Nat) :
    Option (Input × Rcst) :=
  match openingParenthesis input with
  | none => none
  | some (input, openingParen) =>
    let (input, whitespace) :=
      whitespacesAndNewlines input (indentation + 1) true
    let innerIndentation :=
      if rcstsAreMultiline whitespace then indentation + 1 else indentation
    let openingParen := wrapInWhitespace openingParen whitespace
    let (input, inner) :=
      match rec input innerIndentation true with
      | some result => result
      | none => (input, Rcst.error [] .openingParenthesisWithoutExpression)
    let (input, whitespace) := whitespacesAndNewlines input indentation true
    let inner := wrapInWhitespace inner whitespace
    let (input, closingParen) :=
      match closingParenthesis input with
      | some result => result
      | none => (input, Rcst.error [] .parenthesisNotClosed)
    some (input, .parenthesized openingParen inner closingParen)

/-- The `while number_of_expressions_in_last_iteration < expressions.len()`
loop of `body`. The dangling-token fallback parses from `newInput` (the
position right after `whitespaces_and_newlines`), as in the source. -/
def bodyLoop (rec : ExprP) (indentation : Nat) :
    Nat → Input → List Rcst → Int → Input × List Rcst
  | 0, input, expressions, _ => (input, expressions)
  | fuel + 1, input, expressions, nLast =>
    if nLast < (expressions.length : Int) then
      let nLast : Int := expressions.length
      let (newInput, whitespace) :=
        whitespacesAndNewlines input indentation true
      let input := newInput
      let expressions := expressions ++ whitespace
      let (input, indentation2, expressions) :=
        match singleLineWhitespace input with
        | some (ni, unexpectedWhitespace) =>
          let wsChars :=
            match unexpectedWhitespace with
            | .whitespace ws => ws
            | .error ws _ => ws
            | _ => []
          (ni, indentation + whitespaceScore wsChars / 2,
            expressions ++ [Rcst.error wsChars .tooMuchWhitespace])
        | none => (input, indentation, expressions)
      match rec input indentation2 true with
      | some (ni, expr) =>
        let (ws, expr) := expr.splitOuterTrailingWhitespace
        bodyLoop rec indentation fuel ni (expressions ++ [expr] ++ ws) nLast
      | none =>
        let fallback :=
          (colon newInput).orElse fun _ =>
          (comma newInput).orElse fun _ =>
          (closingParenthesis newInput).orElse fun _ =>
          (closingBracket newInput).orElse fun _ =>
          (closingCurlyBrace newInput).orElse fun _ =>
          arrow newInput
        match fallback with
        | some (ni, cst) =>
          bodyLoop rec indentation fuel ni (expressions ++ [cst]) nLast
        | none => bodyLoop rec indentation fuel input expressions nLast
    else (input, expressions)

/-- `body` (string_to_rcst.rs lines 1597–1653). -/
def bodyF (rec : ExprP) (input : Input) (indentation : Nat) :
    Input × List Rcst :=
  bodyLoop rec indentation (input.length + 2) input [] (-1)

/-- The parameter loop of `lambda`. -/
def lambdaParamLoop (rec : ExprP) (indentation : Nat) :
    Nat → Input → Rcst → List Rcst → Input × Rcst × List Rcst
  | 0, input, ocb, parameters => (input, ocb, parameters)
  | fuel + 1, input, ocb, parameters =>
    let (i, whitespace) := whitespacesAndNewlines input (indentation + 1) true
    let (ocb, parameters) :=
      if parameters.isEmpty then (wrapInWhitespace ocb whitespace, parameters)
      else (ocb, wrapLast parameters whitespace)
    match rec i (indentation + 1) false with
    | some (i2, parameter) =>
      lambdaParamLoop rec indentation fuel i2 ocb (parameters ++ [parameter])
    | none => (i, ocb, parameters)

/-- `lambda` (string_to_rcst.rs lines 1655–1756). -/
def lambdaF (rec : ExprP) (input : Input) (indentation : Nat) :
    Option (Input × Rcst) :=
  match openingCurlyBrace input with
  | none => none
  | some (input, openingCB) =>
    let inputWithoutParams := input
    let ocbWithoutParams := openingCB
    let (input2, ocb, parameters) :=
      lambdaParamLoop rec indentation (input.length + 1) input openingCB []
    let (input, openingCB, parametersAndArrow) :=
      match arrow input2 with
      | some (input3, arrowR) =>
        (input3, ocb, some (parameters, arrowR))
      | none => (inputWithoutParams, ocbWithoutParams, none)
    let (i, whitespace) := whitespacesAndNewlines input (indentation + 1) true
    let (openingCB, parametersAndArrow) :=
      match parametersAndArrow with
      | some (parameters, arrowR) =>
        (openingCB, some (parameters, wrapInWhitespace arrowR whitespace))
      | none => (wrapInWhitespace openingCB whitespace, none)
    let (input, bodyRcsts, wsBeforeCB, closingCB) :=
      let inputBefore := i
      let (i2, bodyExpr) :=
        match rec i (indentation + 1) true with
        | some (i2, expr) => (i2, [expr])
        | none => (i, ([] : List Rcst))
      let (i3, whitespace2) :=
        whitespacesAndNewlines i2 (indentation + 1) true
      match closingCurlyBrace i3 with
      | some (i4, curlyBrace) => (i4, bodyExpr, whitespace2, curlyBrace)
      | none =>
        let (i5, bodyRcsts) := bodyF rec inputBefore (indentation + 1)
        let (i6, whitespace3) := whitespacesAndNewlines i5 indentation true
        match closingCurlyBrace i6 with
        | some (i7, curlyBrace) => (i7, bodyRcsts, whitespace3, curlyBrace)
        | none =>
          (i6, bodyRcsts, whitespace3, Rcst.error [] .curlyBraceNotClosed)
    let (openingCB, parametersAndArrow, bodyRcsts) :=
      if !bodyRcsts.isEmpty then
        (openingCB, parametersAndArrow, wrapLast bodyRcsts wsBeforeCB)
      else
        match parametersAndArrow with
        | some (parameters, arrowR) =>
          (openingCB,
            some (parameters, wrapInWhitespace arrowR wsBeforeCB), bodyRcsts)
        | none =>
          (wrapInWhitespace openingCB wsBeforeCB, parametersAndArrow,
            bodyRcsts)
    some (input, .lambda openingCB parametersAndArrow bodyRcsts closingCB)

/-- `assignment` (string_to_rcst.rs lines 1879–1939). -/
def assignmentF (rec : ExprP) (input : Input) (indentation : Nat) :
    Option (Input × Rcst) :=
  match runOfExpressionsF rec input indentation with
  | none => none
  | some (input, signature) =>
    if signature.isEmpty then none
    else
      let (input, whitespace) :=
        whitespacesAndNewlines input (indentation + 1) true
      let signature := wrapLast signature whitespace
      match signature with
      | [] => none
      | name :: parameters =>
        match (colonEqualsSign input).orElse fun _ => equalsSign input with
        | none => none
        | some (input, assignmentSign) =>
          let originalAssignmentSign := assignmentSign
          let inputAfterAssignmentSign := input
          let (input, moreWhitespace) :=
            whitespacesAndNewlines input (indentation + 1) true
          let assignmentSign := wrapInWhitespace assignmentSign moreWhitespace
          let isMultilineSig :=
            Rcst.isMultiline name || rcstsAreMultiline parameters ||
              rcstsAreMultiline whitespace || rcstsAreMultiline moreWhitespace
          let (input, assignmentSign, bodyRcsts) :=
            if isMultilineSig then
              let (input2, bodyRcsts) := bodyF rec input (indentation + 1)
              if bodyRcsts.isEmpty then
                (inputAfterAssignmentSign, originalAssignmentSign,
                  ([] : List Rcst))
              else (input2, assignmentSign, bodyRcsts)
            else
              match rec input indentation true with
              | some (input2, expr) => (input2, assignmentSign, [expr])
              | none =>
                (inputAfterAssignmentSign, originalAssignmentSign,
                  ([] : List Rcst))
          let (whitespace2, signAndBody) := splitPairOtw assignmentSign bodyRcsts
          some (input,
            wrapInWhitespace
              (.assignment name parameters signAndBody.1 signAndBody.2)
              whitespace2)

/-- `expression` (string_to_rcst.rs lines 707–765), with the recursive calls
abstracted into `rec`. -/
def expressionF (rec : ExprP) (input : Input) (indentation : Nat)
    (allowCallAndAssignment : Bool) : Option (Input × Rcst) :=
  let base :=
    (int input).orElse fun _ =>
    (text input indentation).orElse fun _ =>
    (symbol input).orElse fun _ =>
    (listF rec input indentation).orElse fun _ =>
    (structF rec input indentation).orElse fun _ =>
    (parenthesizedF rec input indentation).orElse fun _ =>
    (lambdaF rec input indentation).orElse fun _ =>
    ((if allowCallAndAssignment then assignmentF rec input indentation
      else none)).orElse fun _ =>
    ((if allowCallAndAssignment then callF rec input indentation
      else none)).orElse fun _ =>
    (identifier input).orElse fun _ =>
    (word input).map fun p => (p.1, Rcst.error p.2 .unexpectedCharacters)
  match base with
  | none => none
  | some (input, expression) =>
    structAccessLoop (input.length + 1) input expression

/-- The tied knot: `expression` with a recursion-depth fuel. -/
def expressionFuel : Nat → ExprP
  | 0, _, _, _ => none
  | fuel + 1, input, indentation, allowCallAndAssignment =>
    expressionF (expressionFuel fuel) input indentation allowCallAndAssignment

/-- `body`, with the expression fuel chosen from the input length (each level
of expression nesting consumes input, so this never runs out). -/
def body (input : Input) (indentation : Nat) : Input × List Rcst :=
  bodyF (expressionFuel (2 * input.length + 10)) input indentation

/-- `string_to_rcst::rcst` (lines 10–28): parse a whole module body; any
unparsed rest becomes a final `Error` node with `UnparsedRest`, so the tree
always covers the full input. -/
def stringToRcst (source : List Char) : List Rcst :=
  let (rest, rcsts) := body source 0
  if !rest.isEmpty then rcsts ++ [.error rest .unparsedRest]
  else rcsts

end Parse

end Candy

/-! ## Theorems for claims C2, C3, C7, C8, C9, C10 -/

open Candy

/-! ### Helper lemmas about module resolution -/

theorem UseVm.popComponents_eq (n : Nat) : ∀ path : List String,
    Candy.UseVm.popComponents path n =
      if n ≤ path.length then some (path.take (path.length - n)) else none := by
  induction n with
  | zero =>
    intro path
    simp [Candy.UseVm.popComponents]
  | succ n ih =>
    intro path
    cases path with
    | nil =>
      simp [Candy.UseVm.popComponents]
    | cons x xs =>
      rw [Candy.UseVm.popComponents]
      rw [if_neg (by simp), ih, List.dropLast_eq_take, List.take_take]
      simp only [List.length_cons, List.length_take]
      by_cases h : n ≤ xs.length
      · rw [if_pos (by omega), if_pos (by omega)]
        congr 2
        omega
      · rw [if_neg (by omega), if_neg (by omega)]

theorem UseVm.countLeadingDots_replicate (k : Nat) (l : List Char)
    (h : l.head? ≠ some '.') :
    Candy.UseVm.countLeadingDots (List.replicate k '.' ++ l) = k := by
  induction k with
  | zero =>
    simp only [List.replicate, List.nil_append]
    cases l with
    | nil => rfl
    | cons c rest =>
      have hc : ¬ c = '.' := by simpa using h
      simp [Candy.UseVm.countLeadingDots, hc]
  | succ k ih =>
    simp [List.replicate_succ, Candy.UseVm.countLeadingDots, ih]

/-- **C3 (counterexample).** The path `"..foo"` does *not* resolve two levels
up: parsing yields `parent_navigations = 1` ("two dots means one parent
navigation"), and resolving against the importing module `pkg:dir/mod` pops a
single component, giving `pkg:dir/foo` — not the `pkg:foo` that popping one
component per leading dot would give. -/
theorem usePath_two_dots_counterexample :
    Candy.UseVm.UsePath.parse (.text "..foo") =
      .ok { parentNavigations := 1, path := "foo" } ∧
    Candy.UseVm.UsePath.resolveRelativeTo
        { parentNavigations := 1, path := "foo" }
        { package := "pkg", path := ["dir", "mod"], kind := .code } =
      .ok { package := "pkg", path := ["dir", "foo"], kind := .code } ∧
    (["dir", "foo"] : List String) ≠ ["foo"] := by
  refine ⟨rfl, rfl, by decide⟩

/-- **C3 (amended).** For a use path made of `k ≥ 1` leading dots followed by
a name (which must not itself start with a dot and may only contain ASCII
alphanumeric characters and dots), the resolver consumes the leading dots and
records `k - 1` parent navigations — one dot stays inside the importing
module, two dots go one level up — and resolution pops exactly `k - 1`
components off the importing module's path before appending the name. -/
theorem usePath_parent_navigations_dots_minus_one
    (k : Nat) (hk : 1 ≤ k) (name : String)
    (hvalid : name.toList.all (fun c => c.isAlphanum || c = '.') = true)
    (hnodot : name.toList.head? ≠ some '.')
    (m : Candy.UseVm.Module) (hlen : k - 1 ≤ m.path.length) :
    Candy.UseVm.UsePath.parse
        (.text (String.mk (List.replicate k '.' ++ name.toList))) =
      .ok { parentNavigations := k - 1, path := name } ∧
    Candy.UseVm.UsePath.resolveRelativeTo
        { parentNavigations := k - 1, path := name } m =
      .ok { package := m.package,
            path := m.path.take (m.path.length - (k - 1)) ++ [name],
            kind := if name.toList.contains '.' then .asset else .code } := by
  obtain ⟨i, rfl⟩ : ∃ i, k = i + 1 := ⟨k - 1, by omega⟩
  constructor
  · have htl : (String.mk (List.replicate (i + 1) '.' ++ name.toList)).toList
        = List.replicate (i + 1) '.' ++ name.toList := rfl
    have hdrop : (List.replicate (i + 1) '.' ++ name.toList).drop (i + 1)
        = name.toList := by
      have h0 := List.drop_left (List.replicate (i + 1) '.') name.toList
      rwa [List.length_replicate] at h0
    have hmk : String.mk name.toList = name := by
      cases name
      rfl
    simp only [Candy.UseVm.UsePath.parse, htl,
      UseVm.countLeadingDots_replicate (i + 1) name.toList hnodot, hdrop,
      hvalid, if_true, hmk, Nat.add_sub_cancel]
  · simp only [Candy.UseVm.UsePath.resolveRelativeTo, UseVm.popComponents_eq]
    rw [if_pos (by omega)]

/-- Witness for the amended C3: `"..foo"` (two dots) resolved against
`pkg:dir/mod` records one parent navigation and yields `pkg:dir/foo`. -/
theorem usePath_parent_navigations_dots_minus_one_witness :
    Candy.UseVm.UsePath.parse
        (.text (String.mk (List.replicate 2 '.' ++ "foo".toList))) =
      .ok { parentNavigations := 1, path := "foo" } ∧
    Candy.UseVm.UsePath.resolveRelativeTo
        { parentNavigations := 1, path := "foo" }
        { package := "pkg", path := ["dir", "mod"], kind := .code } =
      .ok { package := "pkg", path := ["dir", "foo"], kind := .code } := by
  have h := usePath_parent_navigations_dots_minus_one 2 (by decide) "foo"
    (by decide) (by decide)
    { package := "pkg", path := ["dir", "mod"], kind := .code } (by decide)
  exact ⟨h.1, h.2⟩

/-- **C9.** `Vm::use_module` returns an `Err` and leaves the fiber's data
stack unchanged whenever (1) the relative-path argument is not a text, (2)
the path does not begin with at least one dot, (3) the part after the leading
dots contains a character that is neither ASCII alphanumeric nor a dot, or
(4) the parsed number of parent navigations exceeds the number of components
of the importing module's path. -/
theorem useModule_error_paths_leave_stack_unchanged
    (provider : Candy.UseVm.Module → Except String Candy.UseVm.UseResult)
    (runCall : List Candy.UseVm.Value → List Candy.UseVm.Value)
    (m : Candy.UseVm.Module) (stack : List Candy.UseVm.Value) :
    (∀ v : Candy.UseVm.Value, (∀ s, v ≠ .text s) →
      Candy.UseVm.useModule provider runCall m v stack =
        (.error "the path has to be a text", stack)) ∧
    (∀ s : String, Candy.UseVm.countLeadingDots s.toList = 0 →
      Candy.UseVm.useModule provider runCall m (.text s) stack =
        (.error "the target must start with at least one dot", stack)) ∧
    (∀ s : String, 1 ≤ Candy.UseVm.countLeadingDots s.toList →
      ¬ ((s.toList.drop (Candy.UseVm.countLeadingDots s.toList)).all
          (fun c => c.isAlphanum || c = '.') = true) →
      Candy.UseVm.useModule provider runCall m (.text s) stack =
        (.error "the target name can only contain letters and dots", stack)) ∧
    (∀ (v : Candy.UseVm.Value) (target : Candy.UseVm.UsePath),
      Candy.UseVm.UsePath.parse v = .ok target →
      m.path.length < target.parentNavigations →
      Candy.UseVm.useModule provider runCall m v stack =
        (.error "too many parent navigations", stack)) := by
  refine ⟨?_, ?_, ?_, ?_⟩
  · intro v hv
    cases v with
    | text s => exact absurd rfl (hv s)
    | int _ => rfl
    | symbol _ => rfl
    | struct _ => rfl
    | closure _ _ => rfl
  · intro s hs
    simp only [Candy.UseVm.useModule, Candy.UseVm.UsePath.parse, hs]
  · intro s h1 hbad
    obtain ⟨i, hi⟩ : ∃ i, Candy.UseVm.countLeadingDots s.toList = i + 1 :=
      ⟨Candy.UseVm.countLeadingDots s.toList - 1, by omega⟩
    rw [hi] at hbad
    simp only [Candy.UseVm.useModule, Candy.UseVm.UsePath.parse, hi,
      if_neg hbad]
  · intro v target hparse hnav
    simp only [Candy.UseVm.useModule, hparse,
      Candy.UseVm.UsePath.resolveRelativeTo, UseVm.popComponents_eq]
    rw [if_neg (by omega)]

/-- Witness for C9: each of the four error conditions, at concrete inputs,
returns the corresponding `Err` with the stack `[Int 0]` untouched. -/
theorem useModule_error_paths_leave_stack_unchanged_witness :
    (Candy.UseVm.useModule (fun _ => .ok (.asset [])) id
        { package := "p", path := ["a"], kind := .code }
        (.int 1) [.int 0] =
      (.error "the path has to be a text", [.int 0])) ∧
    (Candy.UseVm.useModule (fun _ => .ok (.asset [])) id
        { package := "p", path := ["a"], kind := .code }
        (.text "foo") [.int 0] =
      (.error "the target must start with at least one dot", [.int 0])) ∧
    (Candy.UseVm.useModule (fun _ => .ok (.asset [])) id
        { package := "p", path := ["a"], kind := .code }
        (.text "..a!b") [.int 0] =
      (.error "the target name can only contain letters and dots", [.int 0])) ∧
    (Candy.UseVm.useModule (fun _ => .ok (.asset [])) id
        { package := "p", path := ["a"], kind := .code }
        (.text "...a") [.int 0] =
      (.error "too many parent navigations", [.int 0])) := by
  have h := useModule_error_paths_leave_stack_unchanged
    (fun _ => .ok (.asset [])) id
    { package := "p", path := ["a"], kind := .code } [.int 0]
  refine ⟨h.1 (.int 1) (fun s hs => Candy.UseVm.Value.noConfusion hs),
    h.2.1 "foo" (by decide),
    h.2.2.1 "..a!b" (by decide) (by decide),
    h.2.2.2 (.text "...a") { parentNavigations := 2, path := "a" }
      rfl (by decide)⟩

/-! ### Helper lemmas about the optimizer driver -/

theorem Mir.validate_of_checkedOptimization
    (optimization : Candy.Mir.Mir → Candy.Mir.Mir) (mir m' : Candy.Mir.Mir)
    (h : Candy.Mir.checkedOptimization true optimization mir = some m') :
    m' = optimization mir.cleanup ∧ Candy.Mir.validate m' = true := by
  simp only [Candy.Mir.checkedOptimization, if_true] at h
  split at h
  · cases h
    exact ⟨rfl, by assumption⟩
  · cases h

theorem Mir.validate_of_runCheckedAll :
    ∀ (passes : List (Candy.Mir.Mir → Candy.Mir.Mir))
      (mir m' : Candy.Mir.Mir), passes ≠ [] →
      Candy.Mir.runCheckedAll true passes mir = some m' →
      Candy.Mir.validate m' = true := by
  intro passes
  induction passes with
  | nil =>
    intro mir m' hne
    exact absurd rfl hne
  | cons p rest ih =>
    intro mir m' _ h
    unfold Candy.Mir.runCheckedAll at h
    cases hc : Candy.Mir.checkedOptimization true p mir with
    | none =>
      rw [hc] at h
      exact Option.noConfusion h
    | some m1 =>
      rw [hc] at h
      have h' : Candy.Mir.runCheckedAll true rest m1 = some m' := h
      cases rest with
      | nil =>
        have hm : m1 = m' := by
          simpa [Candy.Mir.runCheckedAll] using h'
        subst hm
        exact (Mir.validate_of_checkedOptimization p mir m1 hc).2
      | cons q qs =>
        exact ih m1 m' (by simp) h'

theorem Mir.validate_of_heavilyOptimize :
    ∀ (fuel : Nat) (passes : List (Candy.Mir.Mir → Candy.Mir.Mir))
      (mir m' : Candy.Mir.Mir), passes ≠ [] →
      Candy.Mir.heavilyOptimize true passes fuel mir = some m' →
      Candy.Mir.validate m' = true := by
  intro fuel
  induction fuel with
  | zero =>
    intro passes mir m' _ h
    rw [Candy.Mir.heavilyOptimize] at h
    cases h
  | succ fuel ih =>
    intro passes mir m' hne h
    rw [Candy.Mir.heavilyOptimize] at h
    cases hr : Candy.Mir.runCheckedAll true passes mir with
    | none =>
      rw [hr] at h
      cases h
    | some mir1 =>
      rw [hr] at h
      have h' : (if Candy.Mir.Body.beq mir.body mir1.body = true then some mir1
          else Candy.Mir.heavilyOptimize true passes fuel mir1) = some m' := h
      by_cases hb : Candy.Mir.Body.beq mir.body mir1.body = true
      · rw [if_pos hb] at h'
        cases h'
        exact Mir.validate_of_runCheckedAll passes mir _ hne hr
      · rw [if_neg hb] at h'
        exact ih passes mir1 m' hne h'

/-- **C4.** Every pass the optimizer driver runs is wrapped in
`checked_optimization`: `cleanup` runs before the pass, and (in debug mode)
the validator holds afterwards — the result that survives a completed
`checked_optimization` satisfies unique definitions, domination of every
reference, absence of `Multiple`/`UseModule`, and a defined responsible
argument on every call (all folded into `validate`). Consequently every MIR
produced by the `heavily_optimize` driver loop (which runs each of its passes
through `checked_optimization`) validates. -/
theorem checkedOptimization_runs_cleanup_then_validates :
    (∀ (optimization : Candy.Mir.Mir → Candy.Mir.Mir)
       (mir m' : Candy.Mir.Mir),
      Candy.Mir.checkedOptimization true optimization mir = some m' →
      m' = optimization mir.cleanup ∧ Candy.Mir.validate m' = true) ∧
    (∀ (passes : List (Candy.Mir.Mir → Candy.Mir.Mir)) (fuel : Nat)
       (mir m' : Candy.Mir.Mir), passes ≠ [] →
      Candy.Mir.heavilyOptimize true passes fuel mir = some m' →
      Candy.Mir.validate m' = true) :=
  ⟨Mir.validate_of_checkedOptimization,
   fun passes fuel mir m' hne h =>
     Mir.validate_of_heavilyOptimize fuel passes mir m' hne h⟩

/-- Witness for C4: the identity pass on the one-definition program
`0 = 42` survives `checked_optimization` (so it validates and equals the
pass applied to the cleaned program), and two driver iterations reach the
fixed point with a validating result. -/
theorem checkedOptimization_runs_cleanup_then_validates_witness :
    ((Candy.Mir.Mir.mk (.cons 0 (.int 42) .nil)) =
        id (Candy.Mir.Mir.mk (.cons 0 (.int 42) .nil)).cleanup ∧
      Candy.Mir.validate (Candy.Mir.Mir.mk (.cons 0 (.int 42) .nil)) = true) ∧
    Candy.Mir.validate (Candy.Mir.Mir.mk (.cons 0 (.int 42) .nil)) = true :=
  ⟨checkedOptimization_runs_cleanup_then_validates.1 id
      (Candy.Mir.Mir.mk (.cons 0 (.int 42) .nil))
      (Candy.Mir.Mir.mk (.cons 0 (.int 42) .nil)) rfl,
   checkedOptimization_runs_cleanup_then_validates.2 [id] 2
      (Candy.Mir.Mir.mk (.cons 0 (.int 42) .nil))
      (Candy.Mir.Mir.mk (.cons 0 (.int 42) .nil)) (by simp) rfl⟩

/-! ### Helper lemma about the lowering prefill -/

theorem Lir.pushAllIds_eq_append :
    ∀ (ids stack : List Candy.Mir.Id),
      Candy.Lir.pushAllIds stack ids = stack ++ ids := by
  intro ids
  induction ids with
  | nil =>
    intro stack
    simp [Candy.Lir.pushAllIds]
  | cons id rest ih =>
    intro stack
    rw [Candy.Lir.pushAllIds, List.foldl_cons]
    rw [show List.foldl (fun s id => s ++ [id]) (stack ++ [id]) rest
        = Candy.Lir.pushAllIds (stack ++ [id]) rest from rfl]
    rw [ih]
    simp

/-- **C5.** For every MIR function body lowered to LIR (given that the body's
loop compiles successfully from the symbolic stack prefilled with the
captured ids, then the parameters, then the responsible parameter — which is
exactly the context `compile_lambda` lowers the inner body in): if the final
emitted instruction is a `Call` with `num_args` arguments, it is replaced by
a `TailCall` whose `num_locals_to_pop` equals the symbolic stack height minus
one and whose `num_args` is unchanged; otherwise the lowering appends
`PopMultipleBelowTop(stack.len() - 1)` followed by `Return`. -/
theorem compileLambda_prefills_and_converts_tail_calls
    (captured parameters : List Candy.Mir.Id)
    (responsibleParameter : Candy.Mir.Id) (body : Candy.Mir.Body)
    (ctx' : Candy.Lir.LoweringContext)
    (hbody : Candy.Lir.compileBody
      { stack := captured ++ parameters ++ [responsibleParameter],
        instructions := [] } body = some ctx') :
    (∀ (rest : List Candy.Lir.Instruction) (numArgs : Nat),
      ctx'.instructions = rest ++ [.call numArgs] →
      Candy.Lir.compileLambda captured parameters responsibleParameter body =
        some (rest ++ [.tailCall (ctx'.stack.length - 1) numArgs])) ∧
    (∀ instruction : Candy.Lir.Instruction,
      ctx'.instructions.getLast? = some instruction →
      (∀ numArgs, instruction ≠ .call numArgs) →
      Candy.Lir.compileLambda captured parameters responsibleParameter body =
        some (ctx'.instructions ++
          [.popMultipleBelowTop (ctx'.stack.length - 1), .ret])) := by
  have hstack :
      Candy.Lir.pushAllIds
          (Candy.Lir.pushAllIds ([] : List Candy.Mir.Id) captured) parameters
        ++ [responsibleParameter]
      = captured ++ parameters ++ [responsibleParameter] := by
    rw [Lir.pushAllIds_eq_append, Lir.pushAllIds_eq_append]
    simp
  constructor
  · intro rest numArgs hlast
    have hg : ctx'.instructions.getLast? = some (.call numArgs) := by
      rw [hlast]
      simp
    have hdrop : ctx'.instructions.dropLast = rest := by
      rw [hlast]
      simp
    simp only [Candy.Lir.compileLambda, hstack, hbody, hg, hdrop]
  · intro instruction hg hne
    simp only [Candy.Lir.compileLambda, hstack, hbody, hg]
    cases instruction <;>
      first
        | exact absurd rfl (hne _)
        | simp [Candy.Lir.LoweringContext.emit]

/-- Witness for C5: the body `1 = builtin 7; 2 = hir "x"; 3 = call 1 [] 2`
(final instruction a `Call`) becomes a `TailCall 3 0`, and the body
`1 = 5` (no trailing call) gets `PopMultipleBelowTop 1; Return`. -/
theorem compileLambda_prefills_and_converts_tail_calls_witness :
    Candy.Lir.compileLambda [] [] 0
        (.cons 1 (.builtin 7) (.cons 2 (.hirId "x")
          (.cons 3 (.call 1 [] 2) .nil))) =
      some [.createBuiltin 7, .createHirId "x", .pushFromStack 1,
        .pushFromStack 1, .tailCall 3 0] ∧
    Candy.Lir.compileLambda [] [] 0 (.cons 1 (.int 5) .nil) =
      some [.createInt 5, .popMultipleBelowTop 1, .ret] :=
  ⟨(compileLambda_prefills_and_converts_tail_calls [] [] 0
      (.cons 1 (.builtin 7) (.cons 2 (.hirId "x")
        (.cons 3 (.call 1 [] 2) .nil)))
      { stack := [0, 1, 2, 3],
        instructions := [.createBuiltin 7, .createHirId "x",
          .pushFromStack 1, .pushFromStack 1, .call 0] }
      (by simp [Candy.Lir.compileBody, Candy.Lir.compileExpression,
        Candy.Lir.LoweringContext.emit,
        Candy.Lir.LoweringContext.emitPushFromStack, Candy.Lir.findId,
        Candy.Lir.Instruction.applyToStack, Candy.Lir.emitPushAll,
        Candy.Lir.popMultiple, List.findIdx?])).1
    [.createBuiltin 7, .createHirId "x", .pushFromStack 1, .pushFromStack 1]
    0 rfl,
   (compileLambda_prefills_and_converts_tail_calls [] [] 0
      (.cons 1 (.int 5) .nil)
      { stack := [0, 1], instructions := [.createInt 5] }
      (by simp [Candy.Lir.compileBody, Candy.Lir.compileExpression,
        Candy.Lir.LoweringContext.emit,
        Candy.Lir.Instruction.applyToStack])).2
    (.createInt 5) rfl
    (fun numArgs h => Candy.Lir.Instruction.noConfusion h)⟩

/-- **C1.** The parser never fails globally — `string_to_rcst` always
returns a tree list, wrapping any unparsed rest in an `Error` node — but the
round-trip `render(parse(s)) == s` is violated: on the input `"[ ]"` the
struct parser's field loop attaches the space to the opening bracket, then
aborts the iteration rolling the input back *without* undoing the
attachment, and the closing-bracket handling consumes and attaches the very
same space again, so the tree renders as `"[  ]"`. On an ordinary input such
as `"foo = 42"` the round-trip does hold. -/
theorem stringToRcst_space_bracket_breaks_roundtrip :
    Candy.Parse.render (Candy.Parse.stringToRcst "[ ]".toList) =
      "[  ]".toList ∧
    Candy.Parse.render (Candy.Parse.stringToRcst "[ ]".toList) ≠
      "[ ]".toList ∧
    Candy.Parse.render (Candy.Parse.stringToRcst "foo = 42".toList) =
      "foo = 42".toList := by
  have h : Candy.Parse.render (Candy.Parse.stringToRcst "[ ]".toList) =
      "[  ]".toList := by decide
  refine ⟨h, ?_, by decide⟩
  rw [h]
  decide

/-- **C6 (counterexample).** Constant folding does *not* rewrite `IfElse`
calls with a statically known `True` condition and does *not* compute
`IntAdd` on two `Int` constants: `run_builtin` returns `None` (leave intact)
for both, even though `1` and `2` are visible `Int` constants and the
condition is a visible `True`. -/
theorem runBuiltin_leaves_intAdd_and_ifElse_intact :
    Candy.OldMir.runBuiltin .intAdd [1, 2] [(1, .int 1), (2, .int 2)] =
      none ∧
    Candy.OldMir.runBuiltin .ifElse [1, 2, 3] [(1, .symbol "True")] = none ∧
    (none : Option (Except String Candy.OldMir.Expression)) ≠
      some (.ok (.int 3)) := by
  refine ⟨rfl, rfl, by simp⟩

/-- **C6 (amended).** `run_builtin` recognizes only `Equals` and `StructGet`;
for every other builtin — in particular `IfElse`, `IntAdd` and `IntSubtract`,
whose arms are commented out in the source — it returns `None`, so
constant folding leaves those calls intact regardless of how much is known
about the operands. -/
theorem runBuiltin_only_equals_and_structGet
    (builtin : Candy.OldMir.BuiltinFunction)
    (arguments : List Candy.OldMir.Id) (visible : Candy.OldMir.Visible)
    (h1 : builtin ≠ .equals) (h2 : builtin ≠ .structGet) :
    Candy.OldMir.runBuiltin builtin arguments visible = none := by
  cases builtin <;>
    first
      | exact absurd rfl h1
      | exact absurd rfl h2
      | rfl

/-- Witness for the amended C6: `IntAdd` on the visible constants `1` and `2`
is left intact. -/
theorem runBuiltin_only_equals_and_structGet_witness :
    Candy.OldMir.runBuiltin .intAdd [1, 2] [(1, .int 1), (2, .int 2)] =
      none :=
  runBuiltin_only_equals_and_structGet .intAdd [1, 2]
    [(1, .int 1), (2, .int 2)] (by decide) (by decide)

/-- **C2.** For every pair of integers `a`, `b` and call-site HIR id, the
builtin `IntDivideTruncating` raises a runtime panic iff `b = 0`; the panic's
reason is exactly "Can't divide by zero." and its responsible id is the one
supplied by the call site; for non-zero `b` the builtin returns the truncated
quotient. -/
theorem intDivideTruncating_panics_iff_divisor_zero
    (a b : Int) (responsible : Vm.HirId) :
    (b = 0 →
      Vm.runBuiltin (Vm.intDivideTruncating [.int a, .int b]) responsible =
        .panicked "Can't divide by zero." responsible) ∧
    (b ≠ 0 →
      Vm.runBuiltin (Vm.intDivideTruncating [.int a, .int b]) responsible =
        .returned (.int (a.tdiv b))) := by
  constructor
  · intro hb
    simp [Vm.intDivideTruncating, Vm.runBuiltin, hb]
  · intro hb
    simp [Vm.intDivideTruncating, Vm.runBuiltin, hb]

/-- Witness for C2: at `a = 10`, `b = 0` the builtin panics with the exact
reason, and at `b = 3` it returns `3`. -/
theorem intDivideTruncating_panics_iff_divisor_zero_witness :
    Vm.runBuiltin (Vm.intDivideTruncating [.int 10, .int 0]) "call" =
      .panicked "Can't divide by zero." "call" ∧
    Vm.runBuiltin (Vm.intDivideTruncating [.int 10, .int 3]) "call" =
      .returned (.int 3) := by
  refine ⟨(intDivideTruncating_panics_iff_divisor_zero 10 0 "call").1 rfl, ?_⟩
  have h := (intDivideTruncating_panics_iff_divisor_zero 10 3 "call").2 (by decide)
  rw [show (10 : Int).tdiv 3 = 3 from rfl] at h
  exact h

/-- **C7.** Evaluating `ListGet` at out-of-range indices: on the one-element
list `[42]` with index `1` (and with index `-1`) the code reaches
`to_usize().unwrap()` / the unchecked `list.items[index]` and aborts the VM
with a Rust panic — it does *not* return an `Err`, so no Candy runtime panic
with a reason and responsible HIR id is raised. -/
theorem listGet_out_of_range_aborts :
    Vm.listGet [.list [.int 42], .int 1] = .abort ∧
    Vm.listGet [.list [.int 42], .int (-1)] = .abort ∧
    Vm.runBuiltin (Vm.listGet [.list [.int 42], .int 1]) "call" = .aborted := by
  refine ⟨rfl, rfl, rfl⟩

/-- **C8 (counterexample).** With one observed symbol `"Foo"`, the freshly
constructed pool's symbol collection is exactly `["Foo"]`; the constant
`"Nothing"` is *not* among the candidate symbols. -/
theorem inputPool_new_nothing_missing :
    (Fuzzer.InputPool.new 1 ["Foo"]).symbols = ["Foo"] ∧
    "Nothing" ∉ (Fuzzer.InputPool.new 1 ["Foo"]).symbols := by
  decide

/-- **C8 (amended).** The pool's symbol collection is exactly the observed
symbol texts when at least one was observed; `"Nothing"` is used only as a
fallback when no symbol at all was observed. -/
theorem inputPool_new_symbols
    (numArgs : Nat) (symbolsInHeap : List String) :
    (symbolsInHeap ≠ [] →
      (Fuzzer.InputPool.new numArgs symbolsInHeap).symbols = symbolsInHeap) ∧
    (symbolsInHeap = [] →
      (Fuzzer.InputPool.new numArgs symbolsInHeap).symbols = ["Nothing"]) := by
  constructor
  · intro h
    simp [Fuzzer.InputPool.new, h]
  · intro h
    simp [Fuzzer.InputPool.new, h]

/-- Witness for the amended C8: a nonempty observation set is kept as is, an
empty one falls back to `["Nothing"]`. -/
theorem inputPool_new_symbols_witness :
    (Fuzzer.InputPool.new 2 ["Foo", "Bar"]).symbols = ["Foo", "Bar"] ∧
    (Fuzzer.InputPool.new 2 []).symbols = ["Nothing"] :=
  ⟨(inputPool_new_symbols 2 ["Foo", "Bar"]).1 (by decide),
   (inputPool_new_symbols 2 []).2 rfl⟩

/-- **C10.** For a reference count `n` with `1 ≤ n` (and `n` representable in
a `usize`, so the modelled decrement cannot underflow), `HeapObject::drop`
stores `n - 1` and frees the object — first dropping its children, then
deallocating it — exactly when `n = 1`. -/
theorem dropObject_decrements_and_frees_iff_one
    (n : Nat) (h1 : 1 ≤ n) (h2 : n < 2 ^ 64) :
    (Heap.dropObject n).1 = n - 1 ∧
    ((Heap.dropObject n).2 = [.dropChildren, .deallocate] ↔ n = 1) ∧
    ((Heap.dropObject n).2 = [] ↔ n ≠ 1) := by
  have hmod : (n + (2 ^ 64 - 1)) % 2 ^ 64 = n - 1 := by
    have hsplit : n + (2 ^ 64 - 1) = (n - 1) + 1 * 2 ^ 64 := by omega
    rw [hsplit, Nat.add_mul_mod_self_right]
    exact Nat.mod_eq_of_lt (by omega)
  unfold Heap.dropObject
  simp only [hmod]
  by_cases hone : n = 1
  · subst hone
    simp
  · have : ¬ (n - 1 = 0) := by omega
    simp [this, hone]

/-- Witness for C10: at `n = 1` the stored count is `0` and the object is
freed (children dropped, then deallocated); at `n = 2` the count becomes `1`
and nothing is freed. -/
theorem dropObject_decrements_and_frees_iff_one_witness :
    (Heap.dropObject 1).1 = 0 ∧
    (Heap.dropObject 1).2 = [.dropChildren, .deallocate] ∧
    (Heap.dropObject 2).2 = [] := by
  refine ⟨(dropObject_decrements_and_frees_iff_one 1 (by decide)
      (by norm_num)).1, ?_, ?_⟩
  · exact (dropObject_decrements_and_frees_iff_one 1 (by decide)
      (by norm_num)).2.1.mpr rfl
  · exact (dropObject_decrements_and_frees_iff_one 2 (by decide)
      (by norm_num)).2.2.mpr (by decide)
